import Mathlib

/-! GameOfLife.cpp, a shallow embedding.

The translation unit `GameOfLife.cpp` holds three classes: `Rand` (a 64-bit
xorshift generator), `Grid` (the 200x200 board, the viewport and the
parameters) and `Menu` (the command interpreter).  The definitions below follow
the member functions one by one and keep their names.

Conventions of the embedding

* `unsigned long` is the 64-bit type of the documented target
  (x86_64-apple-darwin, LP64): a natural number below `2 ^ 64`; a left shift is
  reduced modulo `2 ^ 64`.
* `int` values are integers; the only arithmetic that can leave the `int` range
  (`Grid::move_origin`) is reduced with `wrap32`.
* `bool grid[200][200]` is one block of 40000 cells stored row after row, and
  the expression `grid[y][x]` designates the cell at offset `200 * y + x` from
  `grid[0][0]`.  The storage is therefore a function from offsets to `Bool`:
  offsets `0 .. 39999` are the array, every other offset is memory that does
  not belong to the array and about which nothing is assumed.
* `double` values are modelled by `Double`: a rational number, one of the two
  infinities, or NaN.  The comparisons of doubles are exact.  The one computation
  on doubles, the quotient of `Grid::randomize_grid`, converts two `unsigned long`
  values (`ulong_to_double`: rounding to 53 significant bits) and divides by the
  power of two `2 ^ 64`, which rounds nothing.
* text written to `cout`/`cerr` and the calls of `sleep` and `usleep` are left
  out, except that `file_to_grid` reports which diagnostic it printed and
  `display_grid` returns the rows of glyphs it prints.
* what `cin` delivers to the prompts of the menus is an argument (`Typed`), and a
  call of `exit(0)` is the result `none`.
-/

namespace GameOfLife

/-! ## The loop `for (int i = 0; i < n; i++) body` -/

/-- The loop `for (int i = 0; i < n; i++) body` run on the state `s`. -/
def forLoop {σ : Type} (n : Int) (body : Int → σ → σ) (s : σ) : σ :=
  (List.range n.toNat).foldl (fun s i => body (i : Int) s) s

/-! ## class Rand -/

/-- The data members of `class Rand`. -/
structure Rand where
  seed : Nat
  current_state : Nat
deriving DecidableEq

/-- The default constructor `Rand::Rand()`. -/
def Rand.construct_default : Rand :=
  let seed := 0
  { seed := seed, current_state := seed }

/-- The constructor `Rand::Rand(unsigned long given_seed)`. -/
def Rand.construct (given_seed : Nat) : Rand :=
  let given_seed := if given_seed = 0 then 1 else given_seed
  { seed := given_seed, current_state := given_seed }

/-- The three assignments of `Rand::rand_long` applied to the state `s`. -/
def Rand.xorshift (s : Nat) : Nat :=
  let s := s ^^^ ((s <<< 21) % 2 ^ 64)
  let s := s ^^^ (s >>> 35)
  let s := s ^^^ ((s <<< 4) % 2 ^ 64)
  s

/-- The member `Rand::rand_long`: the value returned and the generator after the call. -/
def Rand.rand_long (r : Rand) : Nat × Rand :=
  let current_state := Rand.xorshift r.current_state
  (current_state, { r with current_state := current_state })

/-- The generator after `k` calls of `rand_long`. -/
def Rand.after (r : Rand) : Nat → Rand
  | 0 => r
  | k + 1 => (Rand.after r k).rand_long.2

/-- The value returned by the `k`-th call of `rand_long` (`k = 1` is the first call). -/
def Rand.draw (r : Rand) (k : Nat) : Nat :=
  ((Rand.after r (k - 1)).rand_long).1

/-- The update of the specification: `a = s xor (s << 21)`, `b = a xor (a >> 35)`,
`c = b xor (b << 4)`, each taken modulo `2 ^ 64`. -/
def Rand.draw_spec (s : Nat) : Nat :=
  let a := (s ^^^ (s <<< 21)) % 2 ^ 64
  let b := (a ^^^ (a >>> 35)) % 2 ^ 64
  let c := (b ^^^ (b <<< 4)) % 2 ^ 64
  c

/-! ## Values of type `double` -/

/-- A value of type `double`: a finite value (a rational number), an infinity or NaN.
The two zeros are not told apart. -/
inductive Double where
  | fin (q : ℚ)
  | pinf
  | ninf
  | nan
deriving DecidableEq

/-- The comparison `d >= 0` of the language. -/
def Double.ge_zero : Double → Bool
  | .fin q => decide (0 ≤ q)
  | .pinf => true
  | .ninf => false
  | .nan => false

/-- The comparison `d <= 1` of the language. -/
def Double.le_one : Double → Bool
  | .fin q => decide (q ≤ 1)
  | .pinf => false
  | .ninf => true
  | .nan => false

/-- The statement `0 <= p <= 1` of the specification about a double: `p` is a
number and that number lies in the unit interval. -/
def Double.InUnit : Double → Prop
  | .fin q => 0 ≤ q ∧ q ≤ 1
  | _ => False

/-- Whether a double lies in the unit interval can be decided. -/
instance Double.decidableInUnit (p : Double) : Decidable p.InUnit := by
  cases p <;> simp only [Double.InUnit] <;> infer_instance

/-! ## class Grid -/

/-- The constant `Grid::display_length`. -/
def display_length : Int := 40
/-- The constant `Grid::display_width`. -/
def display_width : Int := 80
/-- The constant `Grid::grid_length`. -/
def grid_length : Int := 200
/-- The constant `Grid::grid_width`. -/
def grid_width : Int := 200

/-- The storage of `bool grid[grid_length][grid_width]` and of what surrounds it,
indexed by the offset from `grid[0][0]`. -/
abbrev Storage := Int → Bool

/-- The cell designated by `m[y][x]`. -/
def Storage.get (m : Storage) (y x : Int) : Bool :=
  m (grid_width * y + x)

/-- The assignment `m[y][x] = v`. -/
def Storage.set (m : Storage) (y x : Int) (v : Bool) : Storage :=
  fun k => if k = grid_width * y + x then v else m k

/-- The data members of `class Grid` (the pointer `rand` apart: the generator is
passed to the one member that uses it). -/
structure Grid where
  hor_step_size : Int
  vert_step_size : Int
  top_left_x : Int
  top_left_y : Int
  cell_prob : Double
  live_char : Char
  dead_char : Char
  grid : Storage

/-- The value of `grid[y][x]` in the engine `g`. -/
def Grid.cell (g : Grid) (y x : Int) : Bool :=
  g.grid.get y x

/-- The member `Grid::clean_grid`. -/
def Grid.clean_grid (g : Grid) : Grid :=
  { g with grid :=
      forLoop grid_length (fun i m =>
        forLoop grid_width (fun j m => m.set i j false) m) g.grid }

/-- The constructor `Grid::Grid`; `raw` is the content of the storage before the
constructor runs. -/
def Grid.construct (raw : Storage) : Grid :=
  Grid.clean_grid
    { hor_step_size := 1
      vert_step_size := 1
      top_left_x := 0
      top_left_y := 0
      cell_prob := .fin (1 / 2)
      live_char := 'O'
      dead_char := '.'
      grid := raw }

/-- The value of an `int` expression whose mathematical value is `n`:
reduction to the 32-bit two's complement range. -/
def wrap32 (n : Int) : Int :=
  (n + 2 ^ 31) % 2 ^ 32 - 2 ^ 31

/-- The member `Grid::move_origin`. -/
def Grid.move_origin (g : Grid) (change_x change_y : Int) : Grid :=
  let max_x := grid_width - display_width - 1
  let max_y := grid_length - display_length - 1
  let top_left_x := wrap32 (g.top_left_x + wrap32 (change_x * g.hor_step_size))
  let top_left_y := wrap32 (g.top_left_y + wrap32 (change_y * g.vert_step_size))
  let top_left_x :=
    if top_left_x > max_x then max_x
    else if top_left_x < 0 then 0
    else top_left_x
  let top_left_y :=
    if top_left_y > max_y then max_y
    else if top_left_y < 0 then 0
    else top_left_y
  { g with top_left_x := top_left_x, top_left_y := top_left_y }

/-- The member `Grid::in_range`. -/
def in_range (y x : Int) : Bool :=
  if (x < 0) || (x > grid_width) || (y < 0) || (y > grid_length) then false
  else true

/-- The pairs `(i, j)` in the order in which the two loops of
`Grid::next_state_cell` visit them. -/
def neighbour_offsets : List (Int × Int) :=
  [(-1, -1), (-1, 0), (-1, 1), (0, -1), (0, 0), (0, 1), (1, -1), (1, 0), (1, 1)]

/-- The member `Grid::next_state_cell`. -/
def Grid.next_state_cell (g : Grid) (y x : Int) : Bool :=
  let currently_alive := g.grid.get y x
  let live_neighbors : Int :=
    neighbour_offsets.foldl (fun live_neighbors ij =>
      if !(ij.1 == 0 && ij.2 == 0) && in_range (y + ij.1) (x + ij.2)
          && g.grid.get (y + ij.1) (x + ij.2)
      then live_neighbors + 1 else live_neighbors) 0
  if currently_alive then
    if live_neighbors < 2 then false
    else if live_neighbors > 3 then false
    else true
  else
    if live_neighbors = 3 then true
    else false

/-- The member `Grid::next_state`.  The local array `new_grid` is not initialised
by the source; each of its cells is written by the first pair of loops before the
second pair reads it, so the content it starts with here plays no part.  Its rows
have `grid_length` cells, as many as the rows of `grid`, so `new_grid[y][x]` lies
at the same offset in `new_grid` as `grid[y][x]` in `grid`. -/
def Grid.next_state (g : Grid) : Grid :=
  let new_grid : Storage :=
    forLoop grid_width (fun y n =>
      forLoop grid_length (fun x n =>
        let new_state := g.next_state_cell y x
        n.set y x new_state) n) (fun _ => false)
  { g with grid :=
      forLoop grid_width (fun y m =>
        forLoop grid_length (fun x m => m.set y x (new_grid.get y x)) m) g.grid }

/-- The member `Grid::set_vert_step_size`. -/
def Grid.set_vert_step_size (g : Grid) (step_size : Int) : Grid :=
  if step_size < grid_length then { g with vert_step_size := step_size }
  else g

/-- The member `Grid::set_hor_step_size`. -/
def Grid.set_hor_step_size (g : Grid) (step_size : Int) : Grid :=
  if step_size < grid_width then { g with hor_step_size := step_size }
  else g

/-- The member `Grid::set_prob`. -/
def Grid.set_prob (g : Grid) (prob : Double) : Grid :=
  if prob.ge_zero && prob.le_one then { g with cell_prob := prob }
  else g

/-- The member `Grid::set_live_char`. -/
def Grid.set_live_char (g : Grid) (live : Char) : Grid :=
  { g with live_char := live }

/-- The member `Grid::set_dead_char`. -/
def Grid.set_dead_char (g : Grid) (dead : Char) : Grid :=
  { g with dead_char := dead }

/-- The function `isspace` of the C locale: the space and the characters
`\t`, `\n`, `\v`, `\f`, `\r` (codes 9 to 13). -/
def isspace (c : Char) : Bool :=
  c.toNat == 32 || (9 ≤ c.toNat && c.toNat ≤ 13)

/-- The characters that the repeated extraction `line_stream >> current_character`
delivers from a line: formatted extraction of a `char` skips white space and then
takes one character. -/
def extracted (line : List Char) : List Char :=
  line.filter (fun c => !isspace c)

/-- How a call of `Grid::file_to_grid` ends: at the end of the input, or at one of
its two early returns. -/
inductive LoadStatus where
  | loaded
  | too_many_lines
  | too_many_characters
deriving DecidableEq

/-- The loop `while (line_stream >> current_character)` of `Grid::file_to_grid`,
run on the characters still to be extracted; the result is `false` when the loop
is left by the early return. -/
def read_characters (line_count : Int) : List Char → Int → Storage → Bool × Storage
  | [], _, m => (true, m)
  | current_character :: rest, char_count, m =>
    let char_count := char_count + 1
    if char_count ≥ grid_width then (false, m)
    else if (current_character == '.') || (current_character == ' ') then
      read_characters line_count rest char_count
        (m.set (line_count - 1) (char_count - 1) false)
    else
      read_characters line_count rest char_count
        (m.set (line_count - 1) (char_count - 1) true)

/-- The loop `while (getline(input_file, line))` of `Grid::file_to_grid`, run on
the lines still to be read. -/
def read_lines : List (List Char) → Int → Grid → LoadStatus × Grid
  | [], _, g => (.loaded, g)
  | line :: rest, line_count, g =>
    let line_count := line_count + 1
    if line_count ≥ grid_length then (.too_many_lines, g.clean_grid)
    else
      match read_characters line_count (extracted line) 0 g.grid with
      | (false, m) => (.too_many_characters, Grid.clean_grid { g with grid := m })
      | (true, m) => read_lines rest line_count { g with grid := m }

/-- The member `Grid::file_to_grid`.  The argument is the content of the named
file as the sequence of lines that `getline` delivers, or `none` when the file
cannot be opened: the stream is then in a failed state and delivers no line. -/
def Grid.file_to_grid (g : Grid) (file : Option (List (List Char))) : LoadStatus × Grid :=
  read_lines (file.getD []) 0 g

/-- The "whitespace-delimited tokens" of the specification, read off a line: the
maximal runs of characters of a line that are not white space.  `cur` is the run
being read, last character first. -/
def tokens_from : List Char → List Char → List (List Char)
  | cur, [] => if cur.isEmpty then [] else [cur.reverse]
  | cur, c :: cs =>
    if isspace c then
      if cur.isEmpty then tokens_from [] cs else cur.reverse :: tokens_from [] cs
    else tokens_from (c :: cur) cs

/-- The whitespace-delimited tokens of a line. -/
def tokens (line : List Char) : List (List Char) :=
  tokens_from [] line

/-- The number of cells of `g` among the up-to-8 neighbours of `(y, x)` that lie
within the grid and are alive: the count of the specification. -/
def live_neighbours_spec (g : Grid) (y x : Int) : Nat :=
  (neighbour_offsets.filter (fun ij =>
    !(ij.1 == 0 && ij.2 == 0)
      && decide (0 ≤ y + ij.1 ∧ y + ij.1 < 200 ∧ 0 ≤ x + ij.2 ∧ x + ij.2 < 200)
      && g.cell (y + ij.1) (x + ij.2))).length

/-- The rule of the specification for the cell `(y, x)` of `g`: alive with 2 or 3
live neighbours, or dead with exactly 3. -/
def rule_spec (g : Grid) (y x : Int) : Bool :=
  (g.cell y x && (live_neighbours_spec g y x == 2 || live_neighbours_spec g y x == 3))
    || (!g.cell y x && live_neighbours_spec g y x == 3)

/-- The engine after `Grid::Grid` and one `file_to_grid` of the four lines `.`, `O`,
`O`, `O`: the cells `(1, 0)`, `(2, 0)`, `(3, 0)` are alive, all others are dead. -/
def last_column_input (raw : Storage) : Grid :=
  ((Grid.construct raw).file_to_grid (some [['.'], ['O'], ['O'], ['O']])).2

/-- The number that `Grid::next_state_cell` has in `live_neighbors` after its two
loops: the pairs `(i, j)` that pass its test. -/
def live_neighbors_code (g : Grid) (y x : Int) : Nat :=
  (neighbour_offsets.filter (fun ij =>
    !(ij.1 == 0 && ij.2 == 0) && in_range (y + ij.1) (x + ij.2)
      && g.grid.get (y + ij.1) (x + ij.2))).length

/-! ## Grid::randomize_grid -/

/-- The constant `ULONG_MAX` of the target: the largest 64-bit word. -/
def ULONG_MAX : Nat := 2 ^ 64 - 1

/-- The number of binary digits of `n`, for `n` of at most `fuel` digits. -/
def bit_length : Nat → Nat → Nat
  | 0, _ => 0
  | fuel + 1, n => if n = 0 then 0 else bit_length fuel (n / 2) + 1

/-- The value of an `unsigned long` converted to `double`: the 64-bit word `n`
rounded to 53 significant bits, to the nearest such value and to the even one of
two equally near.  The result is again a whole number; it is `2 ^ 64` for
`ULONG_MAX`. -/
def ulong_to_double (n : Nat) : Nat :=
  if n < 2 ^ 53 then n
  else
    let e := bit_length 64 n - 53
    let q := n / 2 ^ e
    let r := n % 2 ^ e
    let half := 2 ^ (e - 1)
    if r < half then q * 2 ^ e
    else if r > half then (q + 1) * 2 ^ e
    else if q % 2 = 0 then q * 2 ^ e
    else (q + 1) * 2 ^ e

/-- The value of `n / static_cast<double>(d)` for two `unsigned long` values with
`d` not zero: both are converted to `double` and divided.  The one divisor of the
source is `ULONG_MAX`, whose conversion is the power of two `2 ^ 64`, and the
quotient by it is a double, so the division rounds nothing. -/
def ulong_div_double (n d : Nat) : Double :=
  .fin ((ulong_to_double n : ℚ) / (ulong_to_double d : ℚ))

/-- The comparison `a <= b` of the language on doubles. -/
def Double.le : Double → Double → Bool
  | .nan, _ => false
  | _, .nan => false
  | .ninf, _ => true
  | _, .pinf => true
  | .fin a, .fin b => decide (a ≤ b)
  | .fin _, .ninf => false
  | .pinf, .fin _ => false
  | .pinf, .ninf => false

/-- The test `prob <= cell_prob` of `Grid::randomize_grid` on the value drawn, with
`prob = (ULONG_MAX - drawn) / static_cast<double>(ULONG_MAX)`. -/
def randomize_alive (cell_prob : Double) (drawn : Nat) : Bool :=
  let prob := ulong_div_double (ULONG_MAX - drawn) ULONG_MAX
  prob.le cell_prob

/-- The body of the inner loop of `Grid::randomize_grid` for the cell `(i, j)`, on
the storage and the generator. -/
def randomize_cell (cell_prob : Double) (i j : Int) (s : Storage × Rand) : Storage × Rand :=
  let drawn := s.2.rand_long
  if randomize_alive cell_prob drawn.1 then (s.1.set i j true, drawn.2)
  else (s.1.set i j false, drawn.2)

/-- The member `Grid::randomize_grid`, with the generator `*rand` passed in and out. -/
def Grid.randomize_grid (g : Grid) (rand : Rand) : Grid × Rand :=
  let s := forLoop grid_length (fun i s =>
    forLoop grid_width (fun j s => randomize_cell g.cell_prob i j s) s) (g.grid, rand)
  ({ g with grid := s.1 }, s.2)

/-! ## Grid::display_grid -/

/-- The loop `for (int i = lo; i < hi; i++) body` run on the state `s`. -/
def forFromTo {σ : Type} (lo hi : Int) (body : Int → σ → σ) (s : σ) : σ :=
  (List.range (hi - lo).toNat).foldl (fun s (k : Nat) => body (lo + (k : Int)) s) s

/-- The member `Grid::display_grid`: the rows it prints, each one the glyphs written
before an `endl`, and the engine after the call.  The member assigns to no data
member.  The newlines of `clear_screen` are left out. -/
def Grid.display_grid (g : Grid) : List (List Char) × Grid :=
  let y_max := g.top_left_y + display_length
  let x_max := g.top_left_x + display_width
  (forFromTo g.top_left_y y_max (fun y out =>
    out ++ [forFromTo g.top_left_x x_max (fun x row =>
      if g.grid.get y x then row ++ [g.live_char]
      else row ++ [g.dead_char]) []]) [], g)

/-- The index pairs `(y, x)` of the reads `grid[y][x]` that `Grid::display_grid`
makes, in the order of its two loops. -/
def Grid.display_grid_reads (g : Grid) : List (Int × Int) :=
  let y_max := g.top_left_y + display_length
  let x_max := g.top_left_x + display_width
  forFromTo g.top_left_y y_max (fun y reads =>
    forFromTo g.top_left_x x_max (fun x reads => reads ++ [(y, x)]) reads) []

/-- The index pairs `(y', x')` of the reads `grid[y'][x']` that
`Grid::next_state_cell` makes for the cell `(y, x)`: the cell itself, and every
`grid[y+i][x+j]` whose two guards `!(i == 0 && j == 0)` and `in_range(y+i, x+j)`
let the evaluation of `&&` reach it. -/
def next_state_cell_reads (y x : Int) : List (Int × Int) :=
  (y, x) :: (neighbour_offsets.filter (fun ij =>
    !(ij.1 == 0 && ij.2 == 0) && in_range (y + ij.1) (x + ij.2))).map
      (fun ij => (y + ij.1, x + ij.2))

/-- The engine states that the constructor and the public members of `Grid` lead to. -/
inductive Reachable : Grid → Prop where
  | construct (raw : Storage) : Reachable (Grid.construct raw)
  | display_grid {g : Grid} : Reachable g → Reachable g.display_grid.2
  | move_origin {g : Grid} (change_x change_y : Int) :
      Reachable g → Reachable (g.move_origin change_x change_y)
  | set_prob {g : Grid} (prob : Double) : Reachable g → Reachable (g.set_prob prob)
  | set_live_char {g : Grid} (live : Char) : Reachable g → Reachable (g.set_live_char live)
  | set_dead_char {g : Grid} (dead : Char) : Reachable g → Reachable (g.set_dead_char dead)
  | set_hor_step_size {g : Grid} (step_size : Int) :
      Reachable g → Reachable (g.set_hor_step_size step_size)
  | set_vert_step_size {g : Grid} (step_size : Int) :
      Reachable g → Reachable (g.set_vert_step_size step_size)
  | file_to_grid {g : Grid} (file : Option (List (List Char))) :
      Reachable g → Reachable (g.file_to_grid file).2
  | randomize_grid {g : Grid} (rand : Rand) :
      Reachable g → Reachable (g.randomize_grid rand).1
  | clean_grid {g : Grid} : Reachable g → Reachable g.clean_grid
  | next_state {g : Grid} : Reachable g → Reachable g.next_state

/-! ## class Menu -/

/-- The function `tolower` of the C locale: the letters `A` to `Z` (codes 65 to 90)
go to `a` to `z`, every other character is returned as it is. -/
def tolower (c : Char) : Char :=
  if 65 ≤ c.toNat ∧ c.toNat ≤ 90 then Char.ofNat (c.toNat + 32) else c

/-- The data member `current_menu` of `class Menu` (the pointer `grid` apart). -/
structure Menu where
  current_menu : Int
deriving DecidableEq

/-- The constructor `Menu::Menu`. -/
def Menu.construct : Menu :=
  { current_menu := 0 }

/-- The three objects of `main`: the menu, the grid it points to, and the generator
the grid points to. -/
structure Session where
  menu : Menu
  grid : Grid
  rand : Rand

/-- What `cin` delivers to the extractions of the parameter menu and the file menu:
the values typed in answer to a prompt, and the content of the file that is named. -/
structure Typed where
  hor_step_size : Int
  vert_step_size : Int
  prob : Double
  alive : Char
  dead : Char
  file : Option (List (List Char))

/-- The member `Menu::handle_main_input`; the result is `none` when the case `x`
calls `exit(0)`. -/
def handle_main_input (s : Session) (lower_input : Char) : Option Session :=
  if lower_input = 'c' then some { s with grid := s.grid.clean_grid }
  else if lower_input = 'r' then
    some { s with grid := (s.grid.randomize_grid s.rand).1,
                  rand := (s.grid.randomize_grid s.rand).2 }
  else if lower_input = 'o' then some { s with grid := s.grid.next_state }
  else if lower_input = 'g' then
    some { s with grid := forLoop 1000 (fun _ g => g.next_state.display_grid.2) s.grid }
  else if lower_input = 'm' then some { s with menu := { s.menu with current_menu := 1 } }
  else if lower_input = 'p' then some { s with menu := { s.menu with current_menu := 2 } }
  else if lower_input = 'f' then some { s with menu := { s.menu with current_menu := 3 } }
  else if lower_input = 'x' then none
  else some { s with grid := s.grid.next_state }

/-- The member `Menu::handle_move_input`. -/
def handle_move_input (s : Session) (lower_input : Char) : Session :=
  if lower_input = 'w' then { s with grid := s.grid.move_origin 0 (-1) }
  else if lower_input = 's' then { s with grid := s.grid.move_origin 0 1 }
  else if lower_input = 'a' then { s with grid := s.grid.move_origin (-1) 0 }
  else if lower_input = 'd' then { s with grid := s.grid.move_origin 1 0 }
  else if lower_input = 'm' then { s with menu := { s.menu with current_menu := 0 } }
  else s

/-- The member `Menu::handle_parameter_input`. -/
def handle_parameter_input (s : Session) (typed : Typed) (lower_input : Char) : Session :=
  let s :=
    if lower_input = 'h' then { s with grid := s.grid.set_hor_step_size typed.hor_step_size }
    else if lower_input = 'v' then
      { s with grid := s.grid.set_vert_step_size typed.vert_step_size }
    else if lower_input = 'p' then { s with grid := s.grid.set_prob typed.prob }
    else if lower_input = 'l' then { s with grid := s.grid.set_live_char typed.alive }
    else if lower_input = 'd' then { s with grid := s.grid.set_dead_char typed.dead }
    else if lower_input = 'm' then s
    else s
  { s with menu := { s.menu with current_menu := 0 } }

/-- The member `Menu::handle_file_input`. -/
def handle_file_input (s : Session) (typed : Typed) (lower_input : Char) : Session :=
  let s :=
    if lower_input = 'f' then { s with grid := (s.grid.file_to_grid typed.file).2 }
    else if lower_input = 'm' then s
    else s
  { s with menu := { s.menu with current_menu := 0 } }

/-- The member `Menu::handle_input`; the result is `none` when the process is ended
by `exit(0)`.  The `switch` on `current_menu` has the four cases 0 to 3 and no
default. -/
def handle_input (s : Session) (typed : Typed) (input : Char) : Option Session :=
  let input := tolower input
  if s.menu.current_menu = 0 then handle_main_input s input
  else if s.menu.current_menu = 1 then some (handle_move_input s input)
  else if s.menu.current_menu = 2 then some (handle_parameter_input s typed input)
  else if s.menu.current_menu = 3 then some (handle_file_input s typed input)
  else some s

/-- The four menus of the specification. -/
inductive MenuState where
  | Main
  | Move
  | Parameter
  | File
deriving DecidableEq

/-- The value of `current_menu` that stands for a menu. -/
def MenuState.code : MenuState → Int
  | .Main => 0
  | .Move => 1
  | .Parameter => 2
  | .File => 3

/-- The transition table of the specification, on the lower-case form of the
input; `none` is the end of the process. -/
def transition_spec : MenuState → Char → Option MenuState
  | .Main, c =>
    if c = 'x' then none
    else if c = 'm' then some .Move
    else if c = 'p' then some .Parameter
    else if c = 'f' then some .File
    else some .Main
  | .Move, c => if c = 'm' then some .Main else some .Move
  | .Parameter, _ => some .Main
  | .File, _ => some .Main

/-- The three lines `.O.` of the vertical blinker. -/
def blinker_lines : List (List Char) :=
  [['.', 'O', '.'], ['.', 'O', '.'], ['.', 'O', '.']]

/-- The two lines `OO` of the 2x2 block. -/
def block_lines : List (List Char) :=
  [['O', 'O'], ['O', 'O']]

/-! ## Loops that fill the storage -/

/-- One more turn of a loop runs the body once more, on the last index. -/
theorem forLoop_succ {σ : Type} (n : Nat) (body : Int → σ → σ) (s : σ) :
    forLoop ((n : Int) + 1) body s = body n (forLoop n body s) := by
  have h : ((n : Int) + 1).toNat = n + 1 := by omega
  simp [forLoop, h, List.range_succ]

/-- A loop of no turn leaves the state as it is. -/
theorem forLoop_zero {σ : Type} (body : Int → σ → σ) (s : σ) :
    forLoop 0 body s = s := by
  simp [forLoop]

/-- One row written cell by cell: the first `n` cells of row `i` hold `f`. -/
theorem forLoop_set_row (n : Nat) (i : Int) (f : Int → Bool) (m : Storage) (k : Int) :
    forLoop (n : Int) (fun j m => m.set i j (f j)) m k
      = if 200 * i ≤ k ∧ k < 200 * i + n then f (k - 200 * i) else m k := by
  induction n with
  | zero =>
    have h : ¬ (200 * i ≤ k ∧ k < 200 * i + ((0 : Nat) : Int)) := by omega
    rw [if_neg h, Nat.cast_zero, forLoop_zero]
  | succ n ih =>
    rw [Nat.cast_succ, forLoop_succ]
    simp only [Storage.set, grid_width, ih]
    by_cases h1 : k = 200 * i + n
    · have h2 : 200 * i ≤ k ∧ k < 200 * i + ((n : Int) + 1) := by omega
      have h3 : k - 200 * i = n := by omega
      simp [h1, h2, h3]
    · by_cases h2 : 200 * i ≤ k ∧ k < 200 * i + (n : Int)
      · have h3 : 200 * i ≤ k ∧ k < 200 * i + ((n : Int) + 1) := by omega
        simp [h1, h2, h3]
      · have h3 : ¬ (200 * i ≤ k ∧ k < 200 * i + ((n : Int) + 1)) := by omega
        simp [h1, h2, h3]

/-- One full row written cell by cell. -/
theorem forLoop_set_row_full (i : Int) (f : Int → Bool) (m : Storage) (k : Int) :
    forLoop 200 (fun j m => m.set i j (f j)) m k
      = if 200 * i ≤ k ∧ k < 200 * i + 200 then f (k - 200 * i) else m k := by
  have h := forLoop_set_row 200 i f m k
  simpa using h

/-- The first `n` rows written cell by cell, 200 cells a row. -/
theorem forLoop_set_rows (n : Nat) (f : Int → Int → Bool) (m : Storage) (k : Int) :
    forLoop (n : Int) (fun i m => forLoop 200 (fun j m => m.set i j (f i j)) m) m k
      = if 0 ≤ k ∧ k < 200 * n then f (k / 200) (k % 200) else m k := by
  induction n with
  | zero =>
    have h : ¬ (0 ≤ k ∧ k < 200 * ((0 : Nat) : Int)) := by omega
    rw [if_neg h, Nat.cast_zero, forLoop_zero]
  | succ n ih =>
    rw [Nat.cast_succ, forLoop_succ, forLoop_set_row_full, ih]
    by_cases h1 : 200 * (n : Int) ≤ k ∧ k < 200 * (n : Int) + 200
    · have h2 : 0 ≤ k ∧ k < 200 * ((n : Int) + 1) := by omega
      have h3 : k / 200 = n := by omega
      have h4 : k % 200 = k - 200 * n := by omega
      simp [h1, h2, h3, h4]
    · by_cases h2 : 0 ≤ k ∧ k < 200 * (n : Int)
      · have h3 : 0 ≤ k ∧ k < 200 * ((n : Int) + 1) := by omega
        simp [h1, h2, h3]
      · have h3 : ¬ (0 ≤ k ∧ k < 200 * ((n : Int) + 1)) := by omega
        simp [h1, h2, h3]

/-! ## clean_grid and next_state, cell by cell -/

/-- The storage after `clean_grid`: the 40000 cells of the array are dead, the
rest of the memory is as before. -/
theorem clean_grid_grid (g : Grid) (k : Int) :
    g.clean_grid.grid k = if 0 ≤ k ∧ k < 40000 then false else g.grid k := by
  have h := forLoop_set_rows 200 (fun _ _ => false) g.grid k
  simp only [Nat.cast_ofNat] at h
  simp only [Grid.clean_grid, grid_length, grid_width]
  rw [h]
  norm_num

/-- The members other than the storage are not touched by `clean_grid`. -/
theorem clean_grid_cell (g : Grid) (y x : Int)
    (hy : 0 ≤ y ∧ y < 200) (hx : 0 ≤ x ∧ x < 200) :
    g.clean_grid.cell y x = false := by
  have h : 0 ≤ 200 * y + x ∧ 200 * y + x < 40000 := by omega
  simp [Grid.cell, Storage.get, grid_width, clean_grid_grid, h]

/-- The storage after `next_state`: every cell of the array holds what
`next_state_cell` computes for it on the grid as it was before the call. -/
theorem next_state_grid (g : Grid) (k : Int) :
    g.next_state.grid k
      = if 0 ≤ k ∧ k < 40000 then g.next_state_cell (k / 200) (k % 200) else g.grid k := by
  simp only [Grid.next_state, grid_length, grid_width]
  have h1 := fun (m : Storage) (f : Int → Int → Bool) (k : Int) => forLoop_set_rows 200 f m k
  simp only [Nat.cast_ofNat] at h1
  rw [h1]
  by_cases hk : 0 ≤ k ∧ k < 200 * 200
  · have hk2 : 0 ≤ k ∧ k < 40000 := by omega
    rw [if_pos hk, if_pos hk2]
    simp only [Storage.get, grid_width]
    rw [h1]
    have h2 : 0 ≤ 200 * (k / 200) + k % 200 ∧ 200 * (k / 200) + k % 200 < 200 * 200 := by omega
    have h3 : (200 * (k / 200) + k % 200) / 200 = k / 200 := by omega
    have h4 : (200 * (k / 200) + k % 200) % 200 = k % 200 := by omega
    rw [if_pos h2, h3, h4]
  · have hk2 : ¬ (0 ≤ k ∧ k < 40000) := by omega
    rw [if_neg hk, if_neg hk2]

/-- Every cell of the grid after `next_state` is the value of `next_state_cell`
on the grid before the call. -/
theorem next_state_cell_eq (g : Grid) (y x : Int)
    (hy : 0 ≤ y ∧ y < 200) (hx : 0 ≤ x ∧ x < 200) :
    g.next_state.cell y x = g.next_state_cell y x := by
  have h : 0 ≤ 200 * y + x ∧ 200 * y + x < 40000 := by omega
  have h3 : (200 * y + x) / 200 = y := by omega
  have h4 : (200 * y + x) % 200 = x := by omega
  simp only [Grid.cell, Storage.get, grid_width, next_state_grid]
  rw [if_pos h, h3, h4]

/-! ## The neighbour count of next_state_cell -/

/-- A loop that adds one for every element passing a test counts these elements. -/
theorem foldl_count {α : Type} (p : α → Bool) (l : List α) (c : Int) :
    l.foldl (fun n a => if p a then n + 1 else n) c = c + ((l.filter p).length : Int) := by
  induction l generalizing c with
  | nil => simp
  | cons a l ih =>
    by_cases h : p a = true
    · simp [List.foldl_cons, List.filter_cons, h, ih]; omega
    · simp [List.foldl_cons, List.filter_cons, h, ih]

/-- The value of `next_state_cell` in terms of the count of its loops. -/
theorem next_state_cell_count (g : Grid) (y x : Int) :
    g.next_state_cell y x
      = ((g.cell y x && (live_neighbors_code g y x == 2 || live_neighbors_code g y x == 3))
          || (!g.cell y x && live_neighbors_code g y x == 3)) := by
  have h := foldl_count (fun ij : Int × Int =>
    !(ij.1 == 0 && ij.2 == 0) && in_range (y + ij.1) (x + ij.2)
      && g.grid.get (y + ij.1) (x + ij.2)) neighbour_offsets 0
  simp only [Grid.next_state_cell, Grid.cell]
  rw [h]
  simp only [live_neighbors_code]
  generalize (List.filter _ neighbour_offsets).length = n
  have hn : n = 0 ∨ n = 1 ∨ n = 2 ∨ n = 3 ∨ 4 ≤ n := by omega
  cases g.grid.get y x <;> rcases hn with h | h | h | h | h
  all_goals first
    | (subst h; simp)
    | (have ha : ¬ n < 2 := by omega
       have hb : 3 < n := by omega
       have hc : ¬ n = 3 := by omega
       have hd : ¬ n = 2 := by omega
       have he : ¬ ((n : Int) = 3) := by omega
       simp [ha, hb, hc, hd, he])

/-- Away from the last row and the last column `in_range` admits exactly the
coordinates of the grid. -/
theorem in_range_eq_of_le (y x : Int) (hy : y ≤ 199) (hx : x ≤ 199) :
    in_range y x = decide (0 ≤ y ∧ y < 200 ∧ 0 ≤ x ∧ x < 200) := by
  simp only [in_range, grid_width, grid_length]
  by_cases h : 0 ≤ y ∧ y < 200 ∧ 0 ≤ x ∧ x < 200
  · have h1 : ¬ x < 0 := by omega
    have h2 : ¬ x > 200 := by omega
    have h3 : ¬ y < 0 := by omega
    have h4 : ¬ y > 200 := by omega
    simp [h, h1, h2, h3, h4]
  · have h1 : x < 0 ∨ y < 0 := by omega
    rcases h1 with h1 | h1 <;> simp [h, h1]

/-- For a cell that is neither in the last row nor in the last column the count of
`next_state_cell` is the count of the specification. -/
theorem live_neighbors_code_interior (g : Grid) (y x : Int) (hy : y < 199) (hx : x < 199) :
    live_neighbors_code g y x = live_neighbours_spec g y x := by
  simp only [live_neighbors_code, live_neighbours_spec, Grid.cell]
  congr 1
  apply List.filter_congr
  intro ij hij
  have hb : ij.1 ≤ 1 ∧ ij.2 ≤ 1 := by
    simp only [neighbour_offsets, List.mem_cons, List.mem_singleton, List.mem_nil_iff] at hij
    rcases hij with h | h | h | h | h | h | h | h | h | h <;> first | (subst h; decide) | exact absurd h id
  rw [in_range_eq_of_le (y + ij.1) (x + ij.2) (by omega) (by omega)]

/-- The rule of the specification holds for every cell that is neither in the last
row nor in the last column. -/
theorem next_state_interior (g : Grid) (y x : Int)
    (hy : 0 ≤ y ∧ y < 199) (hx : 0 ≤ x ∧ x < 199) :
    g.next_state.cell y x = rule_spec g y x := by
  rw [next_state_cell_eq g y x (by omega) (by omega), next_state_cell_count,
    live_neighbors_code_interior g y x hy.2 hx.2]
  rfl

/-! ## The xorshift update -/

/-- A 64-bit word has no bit at position 64 or above. -/
theorem testBit_false_of_lt_of_le {x i : Nat} (hx : x < 2 ^ 64) (hi : 64 ≤ i) :
    x.testBit i = false := by
  apply Nat.testBit_lt_two_pow
  exact lt_of_lt_of_le hx (Nat.pow_le_pow_right (by decide) hi)

/-- Reducing the second operand of an xor with a 64-bit word, or the result, is the same. -/
theorem xor_mod_eq {x : Nat} (y : Nat) (hx : x < 2 ^ 64) :
    x ^^^ (y % 2 ^ 64) = (x ^^^ y) % 2 ^ 64 := by
  apply Nat.eq_of_testBit_eq
  intro i
  simp only [Nat.testBit_xor, Nat.testBit_mod_two_pow]
  by_cases hi : i < 64
  · simp [hi]
  · have hf : x.testBit i = false := testBit_false_of_lt_of_le hx (by omega)
    simp [hi, hf]

/-- A stage `x ^= x << k` keeps a 64-bit word a 64-bit word. -/
theorem shl_stage_lt {x : Nat} (k : Nat) (hx : x < 2 ^ 64) :
    x ^^^ ((x <<< k) % 2 ^ 64) < 2 ^ 64 :=
  Nat.xor_lt_two_pow hx (Nat.mod_lt _ (by decide))

/-- A stage `x ^= x >> k` keeps a 64-bit word a 64-bit word. -/
theorem shr_stage_lt {x : Nat} (k : Nat) (hx : x < 2 ^ 64) :
    x ^^^ (x >>> k) < 2 ^ 64 := by
  apply Nat.xor_lt_two_pow hx
  rw [Nat.shiftRight_eq_div_pow]
  exact lt_of_le_of_lt (Nat.div_le_self _ _) hx

/-- The update keeps a 64-bit word a 64-bit word. -/
theorem xorshift_lt {s : Nat} (hs : s < 2 ^ 64) : Rand.xorshift s < 2 ^ 64 := by
  simp only [Rand.xorshift]
  exact shl_stage_lt 4 (shr_stage_lt 35 (shl_stage_lt 21 hs))

/-- On a 64-bit word the three assignments compute the formula of the specification. -/
theorem xorshift_eq_spec {s : Nat} (hs : s < 2 ^ 64) : Rand.xorshift s = Rand.draw_spec s := by
  simp only [Rand.xorshift, Rand.draw_spec]
  have ha := shl_stage_lt 21 hs
  rw [← xor_mod_eq _ hs]
  have hb := shr_stage_lt 35 ha
  rw [Nat.mod_eq_of_lt hb, ← xor_mod_eq _ hb]

/-- A stage `x ^= x << k` is injective: bit `i` of the result decides bit `i`
of `x` once the lower bits are known. -/
theorem shl_stage_inj (k : Nat) (hk : 0 < k) (x y : Nat)
    (h : x ^^^ ((x <<< k) % 2 ^ 64) = y ^^^ ((y <<< k) % 2 ^ 64)) : x = y := by
  apply Nat.eq_of_testBit_eq
  intro i
  induction i using Nat.strong_induction_on with
  | _ i ih =>
    have hi := congrArg (fun n => Nat.testBit n i) h
    simp only [Nat.testBit_xor, Nat.testBit_mod_two_pow, Nat.testBit_shiftLeft] at hi
    by_cases hki : k ≤ i
    · have := ih (i - k) (by omega)
      rw [this] at hi
      revert hi
      generalize x.testBit i = a
      generalize y.testBit i = b
      generalize y.testBit (i - k) = c
      generalize decide (i < 64) = d
      generalize decide (i ≥ k) = e
      revert a b c d e
      decide
    · have hd : decide (i ≥ k) = false := by simpa using hki
      simpa [hd] using hi

/-- A stage `x ^= x >> k` is injective on 64-bit words: bit `i` of the result
decides bit `i` of `x` once the higher bits are known. -/
theorem shr_stage_inj (k : Nat) (hk : 0 < k) (x y : Nat) (hx : x < 2 ^ 64) (hy : y < 2 ^ 64)
    (h : x ^^^ (x >>> k) = y ^^^ (y >>> k)) : x = y := by
  apply Nat.eq_of_testBit_eq
  have key : ∀ n i, 64 ≤ i + n → x.testBit i = y.testBit i := by
    intro n
    induction n with
    | zero =>
      intro i hi
      rw [testBit_false_of_lt_of_le hx (by omega), testBit_false_of_lt_of_le hy (by omega)]
    | succ n ih =>
      intro i hi
      have hb := congrArg (fun m => Nat.testBit m i) h
      simp only [Nat.testBit_xor, Nat.testBit_shiftRight] at hb
      have := ih (k + i) (by omega)
      rw [this] at hb
      revert hb
      generalize x.testBit i = a
      generalize y.testBit i = b
      generalize y.testBit (k + i) = c
      revert a b c
      decide
  intro i
  exact key 64 i (by omega)

/-- The update is injective on 64-bit words. -/
theorem xorshift_inj {x y : Nat} (hx : x < 2 ^ 64) (hy : y < 2 ^ 64)
    (h : Rand.xorshift x = Rand.xorshift y) : x = y := by
  simp only [Rand.xorshift] at h
  have h1 := shl_stage_inj 4 (by decide) _ _ h
  have h2 := shr_stage_inj 35 (by decide) _ _ (shl_stage_lt 21 hx) (shl_stage_lt 21 hy) h1
  exact shl_stage_inj 21 (by decide) _ _ h2

/-- The update maps 0 to 0. -/
theorem xorshift_zero : Rand.xorshift 0 = 0 := by decide

/-- The update maps no non-zero 64-bit word to 0. -/
theorem xorshift_ne_zero {s : Nat} (hs : s < 2 ^ 64) (h0 : s ≠ 0) : Rand.xorshift s ≠ 0 := by
  intro h
  apply h0
  apply xorshift_inj hs (by decide)
  rw [h, xorshift_zero]

/-- The update is a bijection of the 64-bit words onto themselves. -/
theorem xorshift_bijOn : Set.BijOn Rand.xorshift (Set.Iio (2 ^ 64)) (Set.Iio (2 ^ 64)) := by
  have hmaps : Set.MapsTo Rand.xorshift (Set.Iio (2 ^ 64)) (Set.Iio (2 ^ 64)) :=
    fun s hs => xorshift_lt hs
  have hinj : Set.InjOn Rand.xorshift (Set.Iio (2 ^ 64)) :=
    fun x hx y hy h => xorshift_inj hx hy h
  refine ⟨hmaps, hinj, ?_⟩
  haveI : Finite (Set.Iio (2 ^ 64 : Nat)) := (Set.finite_Iio _).to_subtype
  have h1 : Function.Injective (hmaps.restrict Rand.xorshift _ _) :=
    (Set.MapsTo.restrict_inj hmaps).2 hinj
  have h2 := Finite.injective_iff_surjective.1 h1
  intro t ht
  obtain ⟨⟨s, hs⟩, hst⟩ := h2 ⟨t, ht⟩
  exact ⟨s, hs, congrArg Subtype.val hst⟩

/-! ## The loops of file_to_grid -/

/-- The inner loop ends normally exactly when the count stays below 200. -/
theorem read_characters_status (line_count : Int) (cs : List Char) (cc : Int) (m : Storage)
    (hcc : cc < 200) :
    (read_characters line_count cs cc m).1 = decide (cc + cs.length < 200) := by
  induction cs generalizing cc m with
  | nil => simp [read_characters, hcc]
  | cons c cs ih =>
    simp only [read_characters, grid_width, List.length_cons, Nat.cast_succ]
    by_cases h : cc + 1 ≥ 200
    · have h2 : ¬ (cc + ((cs.length : Int) + 1) < 200) := by omega
      simp [h, h2]
    · rw [if_neg h]
      split
      · rw [ih _ _ (by omega)]
        exact decide_eq_decide.2 (by omega)
      · rw [ih _ _ (by omega)]
        exact decide_eq_decide.2 (by omega)

/-- The inner loop writes only cells `char_count .. char_count + length - 1` of
the row `line_count - 1`. -/
theorem read_characters_frame (line_count : Int) (cs : List Char) (cc : Int) (m : Storage)
    (k : Int)
    (hk : ¬ (200 * (line_count - 1) + cc ≤ k ∧ k < 200 * (line_count - 1) + cc + cs.length)) :
    (read_characters line_count cs cc m).2 k = m k := by
  induction cs generalizing cc m with
  | nil => simp [read_characters]
  | cons c cs ih =>
    simp only [List.length_cons, Nat.cast_succ] at hk
    simp only [read_characters, grid_width]
    by_cases h : cc + 1 ≥ 200
    · simp [h]
    · have hne : ¬ (k = 200 * (line_count - 1) + (cc + 1 - 1)) := by omega
      rw [if_neg h]
      split
      · rw [ih (cc + 1) _ (by omega)]
        simp only [Storage.set, grid_width]
        rw [if_neg hne]
      · rw [ih (cc + 1) _ (by omega)]
        simp only [Storage.set, grid_width]
        rw [if_neg hne]

/-- The cell that the inner loop writes for the `j`-th character it extracts. -/
theorem read_characters_written (line_count : Int) (cs : List Char) (cc : Int) (m : Storage)
    (j : Nat) (ch : Char) (hj : cs[j]? = some ch) (hlen : cc + cs.length < 200) :
    (read_characters line_count cs cc m).2 (200 * (line_count - 1) + cc + j)
      = !((ch == '.') || (ch == ' ')) := by
  induction cs generalizing cc m j with
  | nil => simp at hj
  | cons c cs ih =>
    simp only [List.length_cons, Nat.cast_succ] at hlen
    have h : ¬ (cc + 1 ≥ 200) := by omega
    simp only [read_characters, grid_width]
    rw [if_neg h]
    cases j with
    | zero =>
      simp only [List.getElem?_cons_zero, Option.some.injEq] at hj
      subst hj
      split
      · rename_i hc
        rw [read_characters_frame _ _ _ _ _ (by omega)]
        simp [Storage.set, grid_width, hc]
      · rename_i hc
        rw [read_characters_frame _ _ _ _ _ (by omega)]
        simp only [Bool.not_eq_true] at hc
        simp [Storage.set, grid_width, hc]
    | succ j =>
      simp only [List.getElem?_cons_succ] at hj
      have e : 200 * (line_count - 1) + cc + ((j + 1 : Nat) : Int)
          = 200 * (line_count - 1) + (cc + 1) + (j : Int) := by push_cast; ring
      rw [e]
      split <;> exact ih (cc + 1) _ j hj (by omega)

/-- One turn of the outer loop of `file_to_grid`. -/
theorem read_lines_cons (line : List Char) (rest : List (List Char)) (lc : Int) (g : Grid) :
    read_lines (line :: rest) lc g
      = if lc + 1 ≥ 200 then (LoadStatus.too_many_lines, g.clean_grid)
        else if (read_characters (lc + 1) (extracted line) 0 g.grid).1 = true then
          read_lines rest (lc + 1)
            { g with grid := (read_characters (lc + 1) (extracted line) 0 g.grid).2 }
        else (LoadStatus.too_many_characters,
          Grid.clean_grid
            { g with grid := (read_characters (lc + 1) (extracted line) 0 g.grid).2 }) := by
  simp only [read_lines, grid_length]
  by_cases h : lc + 1 ≥ 200
  · simp [h]
  · rw [if_neg h, if_neg h]
    rcases hrc : read_characters (lc + 1) (extracted line) 0 g.grid with ⟨b, m⟩
    cases b <;> simp

/-- The status of the inner loop run on a whole line. -/
theorem read_characters_line_status (lc : Int) (line : List Char) (m : Storage) :
    ((read_characters lc (extracted line) 0 m).1 = true) ↔ (extracted line).length < 200 := by
  rw [read_characters_status lc _ 0 m (by omega)]
  simp

/-- A pattern with too many lines, or with a line of too many characters, ends in
an early return, and the grid is then the result of `clean_grid`. -/
theorem read_lines_fail (lines : List (List Char)) (lc : Int) (g : Grid) (hlc : lc < 200)
    (h : 200 ≤ lc + lines.length ∨ ∃ l ∈ lines, 200 ≤ (extracted l).length) :
    (read_lines lines lc g).1 ≠ LoadStatus.loaded
      ∧ ∃ g1 : Grid, (read_lines lines lc g).2 = g1.clean_grid := by
  induction lines generalizing lc g with
  | nil =>
    rcases h with h | ⟨l, hl, _⟩
    · simp at h; omega
    · simp at hl
  | cons line rest ih =>
    rw [read_lines_cons]
    by_cases h1 : lc + 1 ≥ 200
    · rw [if_pos h1]
      exact ⟨by simp, g, rfl⟩
    · rw [if_neg h1]
      by_cases h2 : (read_characters (lc + 1) (extracted line) 0 g.grid).1 = true
      · rw [if_pos h2]
        apply ih (lc + 1) _ (by omega)
        rcases h with h | ⟨l, hl, hlen⟩
        · left
          simp only [List.length_cons, Nat.cast_succ] at h
          omega
        · rcases List.mem_cons.1 hl with rfl | hl
          · have := (read_characters_line_status (lc + 1) l g.grid).1 h2
            omega
          · exact Or.inr ⟨l, hl, hlen⟩
      · rw [if_neg h2]
        exact ⟨by simp, _, rfl⟩

/-- A pattern of fewer than 200 lines, each of fewer than 200 characters, is read
to its end. -/
theorem read_lines_ok (lines : List (List Char)) (lc : Int) (g : Grid)
    (h1 : lc + lines.length < 200) (h2 : ∀ l ∈ lines, (extracted l).length < 200) :
    (read_lines lines lc g).1 = LoadStatus.loaded := by
  induction lines generalizing lc g with
  | nil => simp [read_lines]
  | cons line rest ih =>
    simp only [List.length_cons, Nat.cast_succ] at h1
    rw [read_lines_cons, if_neg (by omega),
      if_pos ((read_characters_line_status _ _ _).2 (h2 line (List.mem_cons_self _ _)))]
    exact ih _ _ (by omega) (fun l hl => h2 l (List.mem_cons_of_mem _ hl))

/-- What a load that reaches the end of the input leaves alone: every cell of the
array that is not one of the first cells of a row, as many as the row's line has
characters. -/
theorem read_lines_frame (lines : List (List Char)) (lc : Int) (g : Grid) (r c : Int)
    (hc : 0 ≤ c ∧ c < 200)
    (hok : (read_lines lines lc g).1 = LoadStatus.loaded)
    (hout : ∀ (i : Nat) (line : List Char), lines[i]? = some line → r = lc + i →
      ((extracted line).length : Int) ≤ c) :
    (read_lines lines lc g).2.cell r c = g.cell r c := by
  induction lines generalizing lc g with
  | nil => simp [read_lines]
  | cons line rest ih =>
    rw [read_lines_cons] at hok ⊢
    by_cases h1 : lc + 1 ≥ 200
    · rw [if_pos h1] at hok
      simp at hok
    · rw [if_neg h1] at hok ⊢
      by_cases h2 : (read_characters (lc + 1) (extracted line) 0 g.grid).1 = true
      · rw [if_pos h2] at hok ⊢
        have hlen := (read_characters_line_status (lc + 1) line g.grid).1 h2
        rw [ih (lc + 1) _ hok]
        · simp only [Grid.cell, Storage.get, grid_width]
          apply read_characters_frame
          have h0 := hout 0 line (by simp)
          simp only [Nat.cast_zero, add_zero] at h0
          by_cases hr : r = lc
          · have := h0 hr
            omega
          · omega
        · intro i l hi hr
          exact hout (i + 1) l (by simpa using hi) (by push_cast; omega)
      · rw [if_neg h2] at hok
        simp at hok

/-- What a load that reaches the end of the input writes: the `j`-th character that
line `i` delivers decides the cell in row `line_count + i`, column `j`. -/
theorem read_lines_written (lines : List (List Char)) (lc : Int) (g : Grid)
    (i j : Nat) (line : List Char) (ch : Char)
    (hok : (read_lines lines lc g).1 = LoadStatus.loaded)
    (hi : lines[i]? = some line) (hj : (extracted line)[j]? = some ch) :
    (read_lines lines lc g).2.cell (lc + i) j = !((ch == '.') || (ch == ' ')) := by
  induction lines generalizing lc g i with
  | nil => simp at hi
  | cons l rest ih =>
    rw [read_lines_cons] at hok ⊢
    by_cases h1 : lc + 1 ≥ 200
    · rw [if_pos h1] at hok
      simp at hok
    · rw [if_neg h1] at hok ⊢
      by_cases h2 : (read_characters (lc + 1) (extracted l) 0 g.grid).1 = true
      · rw [if_pos h2] at hok ⊢
        have hlen := (read_characters_line_status (lc + 1) l g.grid).1 h2
        cases i with
        | zero =>
          simp only [List.getElem?_cons_zero, Option.some.injEq] at hi
          subst hi
          have hjlt : j < (extracted l).length := by
            rcases Nat.lt_or_ge j (extracted l).length with h | h
            · exact h
            · rw [List.getElem?_eq_none h] at hj
              simp at hj
          rw [read_lines_frame rest (lc + 1) _ (lc + ((0 : Nat) : Int)) j (by omega) hok
            (by intro i line _ hr; omega)]
          have hw := read_characters_written (lc + 1) (extracted l) 0 g.grid j ch hj (by omega)
          simp only [Grid.cell, Storage.get, grid_width]
          have e : 200 * (lc + ((0 : Nat) : Int)) + (j : Int)
              = 200 * (lc + 1 - 1) + 0 + (j : Int) := by push_cast; ring
          rw [e]
          exact hw
        | succ i =>
          simp only [List.getElem?_cons_succ] at hi
          have e : lc + ((i + 1 : Nat) : Int) = lc + 1 + (i : Int) := by push_cast; ring
          rw [e]
          exact ih (lc + 1) _ i hok hi
      · rw [if_neg h2] at hok
        simp at hok

/-- A character that the extraction delivers is not white space. -/
theorem extracted_not_space (line : List Char) (j : Nat) (ch : Char)
    (hj : (extracted line)[j]? = some ch) : isspace ch = false := by
  have hmem : ch ∈ extracted line := List.getElem?_mem hj
  have := (List.mem_filter.1 hmem).2
  simpa using this

/-- A line has at most as many tokens as it has characters that are not white space. -/
theorem tokens_from_length_le (cur line : List Char) :
    (tokens_from cur line).length ≤ (if cur.isEmpty then 0 else 1) + (extracted line).length := by
  induction line generalizing cur with
  | nil =>
    cases cur <;> simp [tokens_from, extracted]
  | cons c cs ih =>
    by_cases hc : isspace c = true
    · cases cur with
      | nil =>
        have := ih []
        simp only [List.isEmpty_nil, if_true] at this
        simp [tokens_from, extracted, hc] at this ⊢
        exact this
      | cons d ds =>
        have := ih []
        simp only [List.isEmpty_nil, if_true] at this
        simp [tokens_from, extracted, hc] at this ⊢
        omega
    · have := ih (c :: cur)
      simp only [List.isEmpty_cons] at this
      simp [tokens_from, extracted, hc] at this ⊢
      cases cur <;> simp <;> omega

/-- A line has at most as many tokens as it delivers characters. -/
theorem tokens_length_le (line : List Char) :
    (tokens line).length ≤ (extracted line).length := by
  have := tokens_from_length_le [] line
  simpa [tokens] using this

/-! ## The engine after construction -/

/-- The storage after `Grid::Grid`: the array is dead, the memory around it is as
the constructor found it. -/
theorem construct_grid (raw : Storage) (k : Int) :
    (Grid.construct raw).grid k = if 0 ≤ k ∧ k < 40000 then false else raw k :=
  clean_grid_grid _ k

/-- The four lines `.`, `O`, `O`, `O` are accepted and make four assignments. -/
theorem file_to_grid_four_lines (g : Grid) :
    g.file_to_grid (some [['.'], ['O'], ['O'], ['O']])
      = (LoadStatus.loaded, { g with grid :=
          (((g.grid.set 0 0 false).set 1 0 true).set 2 0 true).set 3 0 true }) :=
  rfl

/-- A line of two characters that are neither white space nor `.` is accepted and
makes two cells alive. -/
theorem file_to_grid_two_alive (g : Grid) (a b : Char)
    (ha : isspace a = false) (hb : isspace b = false)
    (ha2 : (a == '.' || a == ' ') = false) (hb2 : (b == '.' || b == ' ') = false) :
    g.file_to_grid (some [[a, b]])
      = (LoadStatus.loaded, { g with grid := (g.grid.set 0 0 true).set 0 1 true }) := by
  simp [Grid.file_to_grid, read_lines, read_characters, extracted, ha, hb, ha2, hb2,
    grid_length, grid_width]

/-- The line `.O` is accepted, makes the first cell dead and the second alive. -/
theorem file_to_grid_dot_alive (g : Grid) :
    g.file_to_grid (some [['.', 'O']])
      = (LoadStatus.loaded, { g with grid := (g.grid.set 0 0 false).set 0 1 true }) :=
  rfl

/-- On an engine whose grid is dead, after the four lines `.`, `O`, `O`, `O` are
loaded: the cell `(1, 199)` is dead and has no live neighbour within the grid,
`next_state_cell` counts three, and `next_state` makes the cell alive. -/
theorem four_lines_last_column (g : Grid)
    (hg : ∀ k : Int, 0 ≤ k ∧ k < 40000 → g.grid k = false) :
    (g.file_to_grid (some [['.'], ['O'], ['O'], ['O']])).2.cell 1 199 = false
      ∧ live_neighbours_spec (g.file_to_grid (some [['.'], ['O'], ['O'], ['O']])).2 1 199 = 0
      ∧ rule_spec (g.file_to_grid (some [['.'], ['O'], ['O'], ['O']])).2 1 199 = false
      ∧ live_neighbors_code (g.file_to_grid (some [['.'], ['O'], ['O'], ['O']])).2 1 199 = 3
      ∧ (g.file_to_grid (some [['.'], ['O'], ['O'], ['O']])).2.next_state.cell 1 199
          = true := by
  rw [next_state_cell_eq _ _ _ (by omega) (by omega), next_state_cell_count,
    file_to_grid_four_lines]
  have h198 := hg 198 (by omega)
  have h199 := hg 199 (by omega)
  have h398 := hg 398 (by omega)
  have h399 := hg 399 (by omega)
  have h598 := hg 598 (by omega)
  have h599 := hg 599 (by omega)
  simp [rule_spec, live_neighbours_spec, live_neighbors_code, neighbour_offsets, Grid.cell,
    Storage.get, Storage.set, grid_width, grid_length, in_range, List.filter,
    h198, h199, h398, h399, h598, h599]

/-! ## Sequences of draws -/

/-- A state that is a non-zero 64-bit word stays one under any number of draws. -/
theorem after_state (r : Rand) (k : Nat) (hs : r.current_state < 2 ^ 64)
    (h0 : r.current_state ≠ 0) :
    (r.after k).current_state < 2 ^ 64 ∧ (r.after k).current_state ≠ 0 := by
  induction k with
  | zero => exact ⟨hs, h0⟩
  | succ k ih =>
    simp only [Rand.after, Rand.rand_long]
    exact ⟨xorshift_lt ih.1, xorshift_ne_zero ih.1 ih.2⟩

/-- From the first call on, the value returned is the state left behind. -/
theorem draw_eq_after (r : Rand) (k : Nat) (hk : 1 ≤ k) :
    r.draw k = (r.after k).current_state := by
  obtain ⟨n, rfl⟩ : ∃ n, k = n + 1 := ⟨k - 1, by omega⟩
  simp [Rand.draw, Rand.after, Rand.rand_long]

/-! ## The menu -/

/-- The code of the character built from a small number is that number. -/
theorem toNat_ofNat_of_lt (n : Nat) (h : n < 55296) : (Char.ofNat n).toNat = n := by
  have hv : n.isValidChar := Or.inl h
  simp only [Char.ofNat, hv, dite_true]
  simp only [Char.ofNatAux, Char.toNat]
  show (UInt32.ofNat' n _).toNat = n
  rfl

/-- `tolower` returns no upper-case letter, so applying it twice is applying it once. -/
theorem tolower_tolower (c : Char) : tolower (tolower c) = tolower c := by
  by_cases h : 65 ≤ c.toNat ∧ c.toNat ≤ 90
  · have h1 : tolower c = Char.ofNat (c.toNat + 32) := by simp [tolower, h]
    have h2 : (tolower c).toNat = c.toNat + 32 := by
      rw [h1]; exact toNat_ofNat_of_lt _ (by omega)
    have h3 : ¬ (65 ≤ (tolower c).toNat ∧ (tolower c).toNat ≤ 90) := by omega
    conv_lhs => rw [tolower, if_neg h3]
  · have h1 : tolower c = c := by simp only [tolower, if_neg h]
    rw [h1, h1]

/-- The state 0 stays 0 under any number of draws. -/
theorem after_zero_state (r : Rand) (k : Nat) (h : r.current_state = 0) :
    (r.after k).current_state = 0 := by
  induction k with
  | zero => exact h
  | succ k ih =>
    simp only [Rand.after, Rand.rand_long, ih]
    exact xorshift_zero

/-! ## display_grid and the reachable engines -/

/-- A loop that appends one element a turn appends the elements of all its turns. -/
theorem forFromTo_append {α : Type} (lo hi : Int) (f : Int → α) (init : List α) :
    forFromTo lo hi (fun i l => l ++ [f i]) init
      = init ++ (List.range (hi - lo).toNat).map (fun k : Nat => f (lo + (k : Int))) := by
  simp only [forFromTo]
  generalize List.range (hi - lo).toNat = ks
  induction ks generalizing init with
  | nil => simp
  | cons k ks ih => simp [List.foldl_cons, ih]

/-- A loop that appends a list a turn appends the lists of all its turns. -/
theorem forFromTo_append_list {α : Type} (lo hi : Int) (f : Int → List α) (init : List α) :
    forFromTo lo hi (fun i l => l ++ f i) init
      = init ++ ((List.range (hi - lo).toNat).map (fun k : Nat => f (lo + (k : Int)))).flatten := by
  simp only [forFromTo]
  generalize List.range (hi - lo).toNat = ks
  induction ks generalizing init with
  | nil => simp
  | cons k ks ih => simp [List.foldl_cons, ih]

/-- The rows that `display_grid` prints. -/
theorem display_grid_rows (g : Grid) :
    g.display_grid.1 = (List.range 40).map (fun r : Nat =>
      (List.range 80).map (fun c : Nat =>
        if g.cell (g.top_left_y + r) (g.top_left_x + c) then g.live_char else g.dead_char)) := by
  have hbody : ∀ y : Int, (fun (x : Int) (row : List Char) =>
      if g.grid.get y x then row ++ [g.live_char] else row ++ [g.dead_char])
      = (fun (x : Int) (row : List Char) =>
        row ++ [if g.grid.get y x then g.live_char else g.dead_char]) := by
    intro y
    funext x row
    split <;> rfl
  have h40 : (g.top_left_y + 40 - g.top_left_y).toNat = 40 := by
    rw [add_sub_cancel_left]; rfl
  have h80 : (g.top_left_x + 80 - g.top_left_x).toNat = 80 := by
    rw [add_sub_cancel_left]; rfl
  simp only [Grid.display_grid, display_length, display_width, hbody, forFromTo_append,
    List.nil_append, h40, h80, Grid.cell]

/-- The reads that `display_grid` makes. -/
theorem display_grid_reads_eq (g : Grid) :
    g.display_grid_reads = ((List.range 40).map (fun r : Nat =>
      (List.range 80).map (fun c : Nat => (g.top_left_y + (r : Int), g.top_left_x + (c : Int))))).flatten := by
  have h40 : (g.top_left_y + 40 - g.top_left_y).toNat = 40 := by
    rw [add_sub_cancel_left]; rfl
  have h80 : (g.top_left_x + 80 - g.top_left_x).toNat = 80 := by
    rw [add_sub_cancel_left]; rfl
  simp only [Grid.display_grid_reads, display_length, display_width, forFromTo_append,
    forFromTo_append_list, List.nil_append, h40, h80]

/-- The reads of `display_grid` are the cells of the viewport. -/
theorem mem_display_grid_reads (g : Grid) (p : Int × Int) :
    p ∈ g.display_grid_reads
      ↔ ∃ r c : Nat, r < 40 ∧ c < 80 ∧ p = (g.top_left_y + (r : Int), g.top_left_x + (c : Int)) := by
  rw [display_grid_reads_eq]
  simp only [List.mem_flatten, List.mem_map, List.mem_range]
  constructor
  · rintro ⟨l, ⟨r, hr, rfl⟩, hp⟩
    simp only [List.mem_map, List.mem_range] at hp
    obtain ⟨c, hc, rfl⟩ := hp
    exact ⟨r, c, hr, hc, rfl⟩
  · rintro ⟨r, c, hr, hc, rfl⟩
    refine ⟨_, ⟨r, hr, rfl⟩, ?_⟩
    simp only [List.mem_map, List.mem_range]
    exact ⟨c, hc, rfl⟩

/-- `file_to_grid` leaves the viewport where it is. -/
theorem read_lines_origin (lines : List (List Char)) (lc : Int) (g : Grid) :
    (read_lines lines lc g).2.top_left_x = g.top_left_x
      ∧ (read_lines lines lc g).2.top_left_y = g.top_left_y := by
  induction lines generalizing lc g with
  | nil => simp [read_lines]
  | cons line rest ih =>
    rw [read_lines_cons]
    split_ifs
    · exact ⟨rfl, rfl⟩
    · exact ih _ _
    · exact ⟨rfl, rfl⟩

/-- The origin of the viewport of a reachable engine is in its range. -/
theorem reachable_origin (g : Grid) (h : Reachable g) :
    0 ≤ g.top_left_x ∧ g.top_left_x ≤ 119 ∧ 0 ≤ g.top_left_y ∧ g.top_left_y ≤ 159 := by
  induction h with
  | construct raw =>
    have hx : (Grid.construct raw).top_left_x = 0 := rfl
    have hy : (Grid.construct raw).top_left_y = 0 := rfl
    rw [hx, hy]
    exact ⟨by decide, by decide, by decide, by decide⟩
  | display_grid _ ih => exact ih
  | move_origin dx dy _ _ =>
    simp only [Grid.move_origin, grid_width, grid_length, display_width, display_length]
    refine ⟨?_, ?_, ?_, ?_⟩ <;> split_ifs <;> omega
  | set_prob prob _ ih =>
    simp only [Grid.set_prob]
    split_ifs <;> exact ih
  | set_live_char _ _ ih => exact ih
  | set_dead_char _ _ ih => exact ih
  | set_hor_step_size _ _ ih =>
    simp only [Grid.set_hor_step_size]
    split_ifs <;> exact ih
  | set_vert_step_size _ _ ih =>
    simp only [Grid.set_vert_step_size]
    split_ifs <;> exact ih
  | @file_to_grid g file _ ih =>
    have := read_lines_origin (file.getD []) 0 g
    simp only [Grid.file_to_grid]
    rw [this.1, this.2]
    exact ih
  | randomize_grid _ _ ih => exact ih
  | clean_grid _ ih => exact ih
  | next_state _ ih => exact ih

/-! ## randomize_grid -/

/-- Draws add up. -/
theorem after_add (r : Rand) (a b : Nat) : (r.after a).after b = r.after (a + b) := by
  induction b with
  | zero => rfl
  | succ b ih =>
    simp only [Rand.after, ih]
    rfl

/-- The draws of a generator that has drawn already continue its sequence. -/
theorem draw_after (r : Rand) (a b : Nat) : (r.after a).draw (b + 1) = r.draw (a + b + 1) := by
  simp only [Rand.draw, Nat.add_sub_cancel, after_add]

/-- A state that is a 64-bit word stays one. -/
theorem after_lt (r : Rand) (k : Nat) (hs : r.current_state < 2 ^ 64) :
    (r.after k).current_state < 2 ^ 64 := by
  induction k with
  | zero => exact hs
  | succ k ih =>
    simp only [Rand.after, Rand.rand_long]
    exact xorshift_lt ih

/-- Every value drawn from a well-formed generator is a 64-bit word. -/
theorem draw_lt (r : Rand) (k : Nat) (hs : r.current_state < 2 ^ 64) : r.draw k < 2 ^ 64 := by
  simp only [Rand.draw, Rand.rand_long]
  exact xorshift_lt (after_lt r _ hs)

/-- The body of the inner loop writes the cell from the next draw. -/
theorem randomize_cell_eq (q : Double) (i j : Int) (s : Storage × Rand) :
    randomize_cell q i j s
      = (s.1.set i j (randomize_alive q (s.2.draw 1)), s.2.after 1) := by
  simp only [randomize_cell, Rand.draw, Rand.after]
  split
  · rename_i h; rw [h]
  · rename_i h
    simp only [Bool.not_eq_true] at h
    rw [h]

/-- One row of `randomize_grid`: the first `n` cells of row `i` are decided by the
next `n` draws. -/
theorem forLoop_randomize_row (q : Double) (n : Nat) (i : Int) (m : Storage) (r : Rand) :
    forLoop (n : Int) (fun j s => randomize_cell q i j s) (m, r)
      = (fun k => if 200 * i ≤ k ∧ k < 200 * i + n
            then randomize_alive q (r.draw ((k - 200 * i).toNat + 1)) else m k,
          r.after n) := by
  induction n with
  | zero =>
    rw [Nat.cast_zero, forLoop_zero]
    refine Prod.ext ?_ rfl
    funext k
    have h : ¬ (200 * i ≤ k ∧ k < 200 * i + ((0 : Nat) : Int)) := by omega
    simp only [Nat.cast_zero] at h
    simp only [Nat.cast_zero, if_neg h]
  | succ n ih =>
    rw [Nat.cast_succ, forLoop_succ, ih, randomize_cell_eq]
    refine Prod.ext ?_ ?_
    · funext k
      have hd : (r.after n).draw 1 = r.draw (n + 1) := by
        have := draw_after r n 0
        simpa using this
      simp only [Storage.set, grid_width, hd]
      by_cases h1 : k = 200 * i + n
      · have h2 : 200 * i ≤ k ∧ k < 200 * i + ((n : Int) + 1) := by omega
        have h3 : (k - 200 * i).toNat = n := by omega
        rw [if_pos h1, if_pos h2, h3]
      · rw [if_neg h1]
        by_cases h2 : 200 * i ≤ k ∧ k < 200 * i + (n : Int)
        · have h3 : 200 * i ≤ k ∧ k < 200 * i + ((n : Int) + 1) := by omega
          rw [if_pos h2, if_pos h3]
        · have h3 : ¬ (200 * i ≤ k ∧ k < 200 * i + ((n : Int) + 1)) := by omega
          rw [if_neg h2, if_neg h3]
    · exact after_add r n 1

/-- The first `n` rows of `randomize_grid`: cell after cell, row after row, each
cell is decided by the next draw. -/
theorem forLoop_randomize_rows (q : Double) (n : Nat) (m : Storage) (r : Rand) :
    forLoop (n : Int) (fun i s => forLoop 200 (fun j s => randomize_cell q i j s) s) (m, r)
      = (fun k : Int => if 0 ≤ k ∧ k < 200 * n
            then randomize_alive q (r.draw (k.toNat + 1)) else m k,
          r.after (200 * n)) := by
  induction n with
  | zero =>
    rw [Nat.cast_zero, forLoop_zero]
    refine Prod.ext ?_ rfl
    funext k
    have h : ¬ (0 ≤ k ∧ k < 200 * ((0 : Nat) : Int)) := by omega
    simp only [Nat.cast_zero] at h
    simp only [Nat.cast_zero, if_neg h]
  | succ n ih =>
    have hrow := forLoop_randomize_row q 200 (n : Int)
    simp only [Nat.cast_ofNat] at hrow
    rw [Nat.cast_succ, forLoop_succ, ih, hrow]
    refine Prod.ext ?_ ?_
    · funext k
      simp only
      by_cases h1 : 200 * (n : Int) ≤ k ∧ k < 200 * (n : Int) + 200
      · have h2 : 0 ≤ k ∧ k < 200 * ((n : Int) + 1) := by omega
        have h3 : k.toNat + 1 = 200 * n + (k - 200 * (n : Int)).toNat + 1 := by omega
        rw [if_pos h1, if_pos h2, draw_after, h3]
      · rw [if_neg h1]
        by_cases h2 : 0 ≤ k ∧ k < 200 * (n : Int)
        · have h3 : 0 ≤ k ∧ k < 200 * ((n : Int) + 1) := by omega
          rw [if_pos h2, if_pos h3]
        · have h3 : ¬ (0 ≤ k ∧ k < 200 * ((n : Int) + 1)) := by omega
          rw [if_neg h2, if_neg h3]
    · simp only
      rw [after_add]
      congr 1

/-- The grid and the generator after `randomize_grid`. -/
theorem randomize_grid_eq (g : Grid) (r : Rand) :
    g.randomize_grid r
      = ({ g with grid := fun k : Int => if 0 ≤ k ∧ k < 40000
            then randomize_alive g.cell_prob (r.draw (k.toNat + 1)) else g.grid k },
          r.after 40000) := by
  have h := forLoop_randomize_rows g.cell_prob 200 g.grid r
  simp only [Nat.cast_ofNat] at h
  simp only [Grid.randomize_grid, grid_length, grid_width, h]
  norm_num

/-- The cell `(i, j)` after `randomize_grid` is decided by draw number `200 i + j + 1`. -/
theorem randomize_grid_cell (g : Grid) (r : Rand) (i j : Nat) (hi : i < 200) (hj : j < 200) :
    (g.randomize_grid r).1.cell i j = randomize_alive g.cell_prob (r.draw (200 * i + j + 1)) := by
  rw [randomize_grid_eq]
  have h1 : 0 ≤ 200 * (i : Int) + (j : Int) ∧ 200 * (i : Int) + (j : Int) < 40000 := by omega
  have h2 : (200 * (i : Int) + (j : Int)).toNat = 200 * i + j := by omega
  simp only [Grid.cell, Storage.get, grid_width]
  rw [if_pos h1, h2]

/-- The first draw from the state 15372873306502786798 is `2 ^ 63 - 1`. -/
theorem draw_half : (Rand.construct 15372873306502786798).draw 1 = 2 ^ 63 - 1 := by
  decide

/-- The cell that the draw `2 ^ 63 - 1` decides is alive for the probability one half. -/
theorem randomize_alive_half : randomize_alive (.fin (1 / 2)) (2 ^ 63 - 1) = true := by
  have h1 : ulong_to_double (ULONG_MAX - (2 ^ 63 - 1)) = 2 ^ 63 := by decide
  have h2 : ulong_to_double ULONG_MAX = 2 ^ 64 := by decide
  simp only [randomize_alive, ulong_div_double, h1, h2, Double.le]
  norm_num

/-! ## next_state on the last row -/

/-- What `in_range` admits: the coordinates from 0 to 200, both bounds included. -/
theorem in_range_eq (y x : Int) :
    in_range y x = decide (0 ≤ x ∧ x ≤ 200 ∧ 0 ≤ y ∧ y ≤ 200) := by
  simp only [in_range, grid_width, grid_length]
  by_cases h : 0 ≤ x ∧ x ≤ 200 ∧ 0 ≤ y ∧ y ≤ 200
  · have h1 : ¬ x < 0 := by omega
    have h2 : ¬ x > 200 := by omega
    have h3 : ¬ y < 0 := by omega
    have h4 : ¬ y > 200 := by omega
    simp [h, h1, h2, h3, h4]
  · have h1 : x < 0 ∨ x > 200 ∨ y < 0 ∨ y > 200 := by omega
    rcases h1 with h1 | h1 | h1 | h1 <;> simp [h, h1]

/-- A dead cell `(199, 5)` whose neighbours in the grid are dead comes alive when
the three cells `grid[200][4]`, `grid[200][5]`, `grid[200][6]`, which lie past the
array, read as alive. -/
theorem next_state_last_row_birth (G : Grid)
    (h198 : G.grid 39604 = false ∧ G.grid 39605 = false ∧ G.grid 39606 = false)
    (h199 : G.grid 39804 = false ∧ G.grid 39805 = false ∧ G.grid 39806 = false)
    (h200 : G.grid 40004 = true ∧ G.grid 40005 = true ∧ G.grid 40006 = true) :
    live_neighbours_spec G 199 5 = 0 ∧ live_neighbors_code G 199 5 = 3
      ∧ G.next_state.cell 199 5 = true := by
  rw [next_state_cell_eq _ _ _ (by omega) (by omega), next_state_cell_count]
  obtain ⟨a1, a2, a3⟩ := h198
  obtain ⟨b1, b2, b3⟩ := h199
  obtain ⟨c1, c2, c3⟩ := h200
  simp [live_neighbours_spec, live_neighbors_code, neighbour_offsets, Grid.cell,
    Storage.get, grid_width, grid_length, in_range, List.filter,
    a1, a2, a3, b1, b2, b3, c1, c2, c3]

/-- On a grid that is dead, with dead memory in the 201 cells behind it as well,
`next_state` leaves every cell dead. -/
theorem next_state_dead_of_dead_past (g : Grid)
    (h : ∀ k : Int, 0 ≤ k ∧ k ≤ 40200 → g.grid k = false)
    (y x : Int) (hy : 0 ≤ y ∧ y < 200) (hx : 0 ≤ x ∧ x < 200) :
    g.next_state.cell y x = false := by
  rw [next_state_cell_eq g y x hy hx, next_state_cell_count]
  have hc : g.cell y x = false := by
    simp only [Grid.cell, Storage.get, grid_width]
    exact h _ (by omega)
  have hn : live_neighbors_code g y x = 0 := by
    simp only [live_neighbors_code, List.length_eq_zero, List.filter_eq_nil_iff]
    intro ij _
    rw [in_range_eq]
    by_cases hin : 0 ≤ x + ij.2 ∧ x + ij.2 ≤ 200 ∧ 0 ≤ y + ij.1 ∧ y + ij.1 ≤ 200
    · have hg : g.grid.get (y + ij.1) (x + ij.2) = false := by
        simp only [Storage.get, grid_width]
        exact h _ (by omega)
      simp [hg]
    · simp [hin]
  simp [hc, hn]

/-- The three lines `.O.` are accepted and make nine assignments. -/
theorem file_to_grid_blinker (g : Grid) :
    g.file_to_grid (some blinker_lines)
      = (LoadStatus.loaded, { g with grid :=
          ((((((((g.grid.set 0 0 false).set 0 1 true).set 0 2 false).set 1 0 false).set 1 1
            true).set 1 2 false).set 2 0 false).set 2 1 true).set 2 2 false }) :=
  rfl

/-- The two lines `OO` are accepted and make four cells alive. -/
theorem file_to_grid_block (g : Grid) :
    g.file_to_grid (some block_lines)
      = (LoadStatus.loaded, { g with grid :=
          (((g.grid.set 0 0 true).set 0 1 true).set 1 0 true).set 1 1 true }) :=
  rfl

/-- The blinker on an engine whose grid is dead and whose memory behind the array
is not: the load gives the vertical blinker, `next_state` turns it, and it makes
the cell `(199, 5)` alive as well. -/
theorem blinker_last_row (g : Grid)
    (hg : ∀ k : Int, 0 ≤ k ∧ k < 40000 → g.grid k = false)
    (hp : ∀ k : Int, 40000 ≤ k → g.grid k = true) :
    (g.file_to_grid (some blinker_lines)).1
        = LoadStatus.loaded
      ∧ (∀ y x : Int, 0 ≤ y ∧ y < 200 ∧ 0 ≤ x ∧ x < 200 →
          (g.file_to_grid (some blinker_lines)).2.cell y x
            = decide (x = 1 ∧ y ≤ 2))
      ∧ (g.file_to_grid
          (some blinker_lines)).2.next_state.cell 1 0 = true
      ∧ (g.file_to_grid
          (some blinker_lines)).2.next_state.cell 1 1 = true
      ∧ (g.file_to_grid
          (some blinker_lines)).2.next_state.cell 1 2 = true
      ∧ (g.file_to_grid
          (some blinker_lines)).2.next_state.cell 199 5
          = true := by
  rw [file_to_grid_blinker]
  have e0 := hg 0 (by omega)
  have e1 := hg 1 (by omega)
  have e2 := hg 2 (by omega)
  have e200 := hg 200 (by omega)
  have e201 := hg 201 (by omega)
  have e202 := hg 202 (by omega)
  have e400 := hg 400 (by omega)
  have e401 := hg 401 (by omega)
  have e402 := hg 402 (by omega)
  refine ⟨rfl, ?_, ?_, ?_, ?_, ?_⟩
  · intro y x hyx
    simp only [Grid.cell, Storage.get, Storage.set, grid_width]
    have hd := hg (200 * y + x) (by omega)
    by_cases h1 : x = 1 ∧ y ≤ 2
    · obtain ⟨rfl, hy2⟩ := h1
      have : y = 0 ∨ y = 1 ∨ y = 2 := by omega
      rcases this with rfl | rfl | rfl <;> simp
    · have n1 : ¬ (200 * y + x = 200 * 0 + 1) := by omega
      have n2 : ¬ (200 * y + x = 200 * 1 + 1) := by omega
      have n3 : ¬ (200 * y + x = 200 * 2 + 1) := by omega
      simp only [n1, n2, n3, h1, if_false, decide_False]
      split_ifs <;> first | rfl | exact hd
  · rw [next_state_cell_eq _ _ _ (by omega) (by omega), next_state_cell_count]
    simp [live_neighbors_code, neighbour_offsets, Grid.cell, Storage.get, Storage.set,
      grid_width, grid_length, in_range, List.filter, e0, e1, e2, e200, e201, e202, e400, e401,
      e402]
  · rw [next_state_cell_eq _ _ _ (by omega) (by omega), next_state_cell_count]
    simp [live_neighbors_code, neighbour_offsets, Grid.cell, Storage.get, Storage.set,
      grid_width, grid_length, in_range, List.filter, e0, e1, e2, e200, e201, e202, e400, e401,
      e402]
  · rw [next_state_cell_eq _ _ _ (by omega) (by omega), next_state_cell_count]
    have e3 := hg 3 (by omega)
    have e203 := hg 203 (by omega)
    have e403 := hg 403 (by omega)
    simp [live_neighbors_code, neighbour_offsets, Grid.cell, Storage.get, Storage.set,
      grid_width, grid_length, in_range, List.filter, e1, e2, e3, e201, e202, e203, e401,
      e402, e403]
  · refine (next_state_last_row_birth _ ?_ ?_ ?_).2.2
    · simp [Storage.set, grid_width, hg]
    · simp [Storage.set, grid_width, hg]
    · simp [Storage.set, grid_width, hp]

/-- The 2x2 block in the corner of an engine whose grid is dead and whose memory
behind the array is not: the load gives the block, and `next_state` makes the
dead cell `(199, 5)` alive. -/
theorem block_last_row (g : Grid)
    (hg : ∀ k : Int, 0 ≤ k ∧ k < 40000 → g.grid k = false)
    (hp : ∀ k : Int, 40000 ≤ k → g.grid k = true) :
    (∀ y x : Int, 0 ≤ y ∧ y < 200 ∧ 0 ≤ x ∧ x < 200 →
        (g.file_to_grid (some block_lines)).2.cell y x
          = decide ((y = 0 ∨ y = 1) ∧ (x = 0 ∨ x = 1)))
      ∧ (g.file_to_grid (some block_lines)).2.cell 199 5 = false
      ∧ (g.file_to_grid (some block_lines)).2.next_state.cell 199 5 = true := by
  rw [file_to_grid_block]
  refine ⟨?_, ?_, ?_⟩
  · intro y x hyx
    simp only [Grid.cell, Storage.get, Storage.set, grid_width]
    have hd := hg (200 * y + x) (by omega)
    by_cases h1 : (y = 0 ∨ y = 1) ∧ (x = 0 ∨ x = 1)
    · obtain ⟨rfl | rfl, rfl | rfl⟩ := h1 <;> simp
    · have n1 : ¬ (200 * y + x = 200 * 0 + 0) := by omega
      have n2 : ¬ (200 * y + x = 200 * 0 + 1) := by omega
      have n3 : ¬ (200 * y + x = 200 * 1 + 0) := by omega
      have n4 : ¬ (200 * y + x = 200 * 1 + 1) := by omega
      simp only [n1, n2, n3, n4, h1, if_false, decide_False]
      exact hd
  · simp [Grid.cell, Storage.get, Storage.set, grid_width, hg]
  · refine (next_state_last_row_birth _ ?_ ?_ ?_).2.2
    · simp [Storage.set, grid_width, hg]
    · simp [Storage.set, grid_width, hg]
    · simp [Storage.set, grid_width, hp]

/-! ## The claims -/

/-- Claim C1, evaluated where the code departs from it.  In the engine
`last_column_input` the cell `(1, 199)` is dead and none of its neighbours within
the grid is alive, so the rule of the claim leaves it dead.  `next_state_cell`
counts three live neighbours all the same: `in_range` admits the column index
200, and `grid[0][200]`, `grid[1][200]`, `grid[2][200]` are the cells `(1, 0)`,
`(2, 0)`, `(3, 0)` of the following rows.  After `next_state` the cell is alive. -/
theorem next_state_last_column_counts_next_row (raw : Storage) :
    (last_column_input raw).cell 1 199 = false
      ∧ live_neighbours_spec (last_column_input raw) 1 199 = 0
      ∧ rule_spec (last_column_input raw) 1 199 = false
      ∧ live_neighbors_code (last_column_input raw) 1 199 = 3
      ∧ (last_column_input raw).next_state.cell 1 199 = true := by
  have h := four_lines_last_column (Grid.construct raw)
    (fun k hk => by rw [construct_grid, if_pos hk])
  exact h

/-- Claim C2: whatever the engine state and whatever the two arguments, after
`move_origin` the origin satisfies `0 <= top_left_x <= 200 - 80 - 1` and
`0 <= top_left_y <= 200 - 40 - 1`. -/
theorem move_origin_clamps (g : Grid) (change_x change_y : Int) :
    0 ≤ (g.move_origin change_x change_y).top_left_x
      ∧ (g.move_origin change_x change_y).top_left_x ≤ 200 - 80 - 1
      ∧ 0 ≤ (g.move_origin change_x change_y).top_left_y
      ∧ (g.move_origin change_x change_y).top_left_y ≤ 200 - 40 - 1 := by
  simp only [Grid.move_origin, grid_width, grid_length, display_width, display_length]
  refine ⟨?_, ?_, ?_, ?_⟩ <;> split_ifs <;> omega

/-- Claim C3: when the input has 200 lines or more, or one of its lines has 200
whitespace-delimited tokens or more, `file_to_grid` ends in an early return and
every one of the 200x200 cells is dead afterwards, whatever the grid was. -/
theorem file_to_grid_too_large_clears (g : Grid) (lines : List (List Char))
    (h : 200 ≤ lines.length ∨ ∃ l ∈ lines, 200 ≤ (tokens l).length)
    (y x : Int) (hy : 0 ≤ y ∧ y < 200) (hx : 0 ≤ x ∧ x < 200) :
    (g.file_to_grid (some lines)).1 ≠ LoadStatus.loaded
      ∧ (g.file_to_grid (some lines)).2.cell y x = false := by
  have h2 : 200 ≤ (0 : Int) + lines.length ∨ ∃ l ∈ lines, 200 ≤ (extracted l).length := by
    rcases h with h | ⟨l, hl, hlen⟩
    · left; omega
    · exact Or.inr ⟨l, hl, le_trans hlen (tokens_length_le l)⟩
  obtain ⟨hs, g1, hg⟩ := read_lines_fail lines 0 g (by omega) h2
  refine ⟨hs, ?_⟩
  simp only [Grid.file_to_grid, Option.getD_some]
  rw [hg]
  exact clean_grid_cell g1 y x hy hx

/-- The case of claim C3 that the specification names: 200 lines. -/
theorem file_to_grid_too_large_clears_witness :
    (200 ≤ (List.replicate 200 ([] : List Char)).length
        ∨ ∃ l ∈ List.replicate 200 ([] : List Char), 200 ≤ (tokens l).length)
      ∧ ((Grid.construct (fun _ => true)).file_to_grid
            (some (List.replicate 200 []))).1 ≠ LoadStatus.loaded
      ∧ ((Grid.construct (fun _ => true)).file_to_grid
            (some (List.replicate 200 []))).2.cell 0 0 = false :=
  ⟨Or.inl (by rw [List.length_replicate]),
    file_to_grid_too_large_clears _ _ (Or.inl (by rw [List.length_replicate])) 0 0
      (by decide) (by decide)⟩

/-- Claim C4 as stated fails: the single line `.O` is one whitespace-delimited
token other than `.`, so the claim makes the cell `(0, 0)` alive; `file_to_grid`
extracts the two characters one by one and leaves the cell `(0, 0)` dead. -/
theorem file_to_grid_token_claim_fails :
    ¬ (∀ (g : Grid) (lines : List (List Char)),
        lines.length ≤ 199 → (∀ l ∈ lines, (tokens l).length ≤ 199) →
        (g.file_to_grid (some lines)).1 = LoadStatus.loaded
          ∧ ∀ (i j : Nat) (line tok : List Char), lines[i]? = some line →
              (tokens line)[j]? = some tok →
              (g.file_to_grid (some lines)).2.cell i j = !(tok == ['.'] || tok == [' '])) := by
  intro h
  have h1 := (h (Grid.construct (fun _ => false)) [['.', 'O']] (by decide) (by decide)).2
    0 0 ['.', 'O'] ['.', 'O'] rfl (by decide)
  rw [file_to_grid_dot_alive] at h1
  simp [Grid.cell, Storage.get, Storage.set, grid_width] at h1

/-- Claim C4, amended: an input of at most 199 lines, each with at most 199
characters that are not white space, is read to its end, and the `j`-th such
character of line `i` decides the cell in row `i`, column `j`: dead for the
character `.`, alive for any other. -/
theorem file_to_grid_loads_characters (g : Grid) (lines : List (List Char))
    (hl : lines.length ≤ 199) (hc : ∀ l ∈ lines, (extracted l).length ≤ 199) :
    (g.file_to_grid (some lines)).1 = LoadStatus.loaded
      ∧ ∀ (i j : Nat) (line : List Char) (ch : Char), lines[i]? = some line →
          (extracted line)[j]? = some ch →
          (g.file_to_grid (some lines)).2.cell i j = !(ch == '.') := by
  have hok : (read_lines lines 0 g).1 = LoadStatus.loaded :=
    read_lines_ok lines 0 g (by omega) (fun l hl => Nat.lt_succ_of_le (hc l hl))
  refine ⟨hok, ?_⟩
  intro i j line ch hi hj
  have hw := read_lines_written lines 0 g i j line ch hok hi hj
  have hsp := extracted_not_space line j ch hj
  have hne : (ch == ' ') = false := by
    cases hb : (ch == ' ')
    · rfl
    · have : ch = ' ' := by simpa using hb
      subst this
      simp [isspace] at hsp
  simp only [Grid.file_to_grid, Option.getD_some]
  rw [zero_add] at hw
  rw [hw, hne, Bool.or_false]

/-- The amended claim C4 on the one line `.O O`. -/
theorem file_to_grid_loads_characters_witness :
    ([['.', 'O', ' ', 'O']] : List (List Char)).length ≤ 199
      ∧ (∀ l ∈ ([['.', 'O', ' ', 'O']] : List (List Char)), (extracted l).length ≤ 199)
      ∧ ((Grid.construct (fun _ => true)).file_to_grid
          (some [['.', 'O', ' ', 'O']])).1 = LoadStatus.loaded
      ∧ ∀ (i j : Nat) (line : List Char) (ch : Char),
          ([['.', 'O', ' ', 'O']] : List (List Char))[i]? = some line →
          (extracted line)[j]? = some ch →
          ((Grid.construct (fun _ => true)).file_to_grid
            (some [['.', 'O', ' ', 'O']])).2.cell i j = !(ch == '.') :=
  ⟨by decide, by decide,
    file_to_grid_loads_characters _ _ (by decide) (by decide)⟩

/-- Claim C5 as stated fails: the single line `OO` has one whitespace-delimited
token, so the claim keeps the cell `(0, 1)` of a fresh engine dead; `file_to_grid`
writes it alive. -/
theorem file_to_grid_token_extent_fails :
    ¬ (∀ (g : Grid) (lines : List (List Char)) (r c : Nat),
        (g.file_to_grid (some lines)).1 = LoadStatus.loaded → r < 200 → c < 200 →
        (lines.length ≤ r ∨ ∃ line, lines[r]? = some line ∧ (tokens line).length ≤ c) →
        (g.file_to_grid (some lines)).2.cell r c = g.cell r c) := by
  intro h
  have hl := file_to_grid_two_alive (Grid.construct (fun _ => false)) 'O' 'O'
    (by decide) (by decide) (by decide) (by decide)
  have h1 := h (Grid.construct (fun _ => false)) [['O', 'O']] 0 1 (by rw [hl]) (by decide)
    (by decide) (Or.inr ⟨['O', 'O'], rfl, by decide⟩)
  rw [hl] at h1
  simp [Grid.cell, Storage.get, Storage.set, grid_width, construct_grid] at h1

/-- Claim C5, amended: after a load that is accepted, a cell `(r, c)` of the grid
with `r` not below the number of lines, or `c` not below the number of characters
of line `r` that are not white space, holds the value it held before; and loading
no line at all leaves the engine as it was. -/
theorem file_to_grid_keeps_cells_beyond (g : Grid) (lines : List (List Char)) (r c : Nat)
    (hok : (g.file_to_grid (some lines)).1 = LoadStatus.loaded) (hr : r < 200) (hc : c < 200)
    (hout : lines.length ≤ r ∨ ∃ line, lines[r]? = some line ∧ (extracted line).length ≤ c) :
    (g.file_to_grid (some lines)).2.cell r c = g.cell r c
      ∧ g.file_to_grid (some []) = (LoadStatus.loaded, g) := by
  refine ⟨?_, rfl⟩
  simp only [Grid.file_to_grid, Option.getD_some] at hok ⊢
  apply read_lines_frame lines 0 g r c (by omega) hok
  intro i line hi hri
  have hir : i = r := by omega
  subst hir
  rcases hout with h | ⟨l, hl, hlen⟩
  · rw [List.getElem?_eq_none h] at hi
    simp at hi
  · rw [hi] at hl
    cases hl
    exact_mod_cast hlen

/-- The amended claim C5 on the one line `OO`, for the cell `(0, 2)`. -/
theorem file_to_grid_keeps_cells_beyond_witness :
    ((Grid.construct (fun _ => true)).file_to_grid (some [['O', 'O']])).1 = LoadStatus.loaded
      ∧ 0 < 200 ∧ 2 < 200
      ∧ (([['O', 'O']] : List (List Char)).length ≤ 0
          ∨ ∃ line, ([['O', 'O']] : List (List Char))[0]? = some line
              ∧ (extracted line).length ≤ 2)
      ∧ ((Grid.construct (fun _ => true)).file_to_grid (some [['O', 'O']])).2.cell
            (0 : Nat) (2 : Nat)
          = (Grid.construct (fun _ => true)).cell (0 : Nat) (2 : Nat)
      ∧ (Grid.construct (fun _ => true)).file_to_grid (some [])
          = (LoadStatus.loaded, Grid.construct (fun _ => true)) :=
  ⟨by rw [file_to_grid_two_alive _ _ _ (by decide) (by decide) (by decide) (by decide)],
    by decide, by decide, Or.inr ⟨['O', 'O'], rfl, by decide⟩,
    file_to_grid_keeps_cells_beyond _ _ 0 2
      (by rw [file_to_grid_two_alive _ _ _ (by decide) (by decide) (by decide) (by decide)])
      (by decide) (by decide) (Or.inr ⟨['O', 'O'], rfl, by decide⟩)⟩

/-- Claim C6, evaluated where the code departs from it: on the freshly
constructed engine, whose two step sizes are 1, `set_hor_step_size(-1)` and
`set_vert_step_size(-1)` store the negative value instead of rejecting it. -/
theorem set_step_size_accepts_negative (raw : Storage) :
    (Grid.construct raw).hor_step_size = 1
      ∧ ((Grid.construct raw).set_hor_step_size (-1)).hor_step_size = -1
      ∧ (Grid.construct raw).vert_step_size = 1
      ∧ ((Grid.construct raw).set_vert_step_size (-1)).vert_step_size = -1 :=
  ⟨rfl, rfl, rfl, rfl⟩

/-- Claim C7: `set_prob(p)` stores `p` as `cell_prob` when `0 <= p <= 1` and
otherwise leaves the whole engine as it was.  So 1.5 is rejected, and 0.3 (the
double nearest to it, 5404319552844595 / 2^54) is accepted. -/
theorem set_prob_accepts_iff_in_unit (g : Grid) (p : Double) :
    g.set_prob p = (if p.InUnit then { g with cell_prob := p } else g)
      ∧ g.set_prob (.fin (3 / 2)) = g
      ∧ g.set_prob (.fin (5404319552844595 / 18014398509481984))
          = { g with cell_prob := .fin (5404319552844595 / 18014398509481984) } := by
  refine ⟨?_, ?_, ?_⟩
  · cases p with
    | fin q =>
      by_cases h : 0 ≤ q ∧ q ≤ 1
      · simp [Grid.set_prob, Double.ge_zero, Double.le_one, Double.InUnit, h]
      · have h2 : ¬ (0 ≤ q ∧ q ≤ 1) := h
        simp only [Grid.set_prob, Double.ge_zero, Double.le_one, Double.InUnit]
        rw [if_neg h2]
        simp only [Bool.and_eq_true, decide_eq_true_eq]
        rw [if_neg h2]
    | pinf => simp [Grid.set_prob, Double.ge_zero, Double.le_one, Double.InUnit]
    | ninf => simp [Grid.set_prob, Double.ge_zero, Double.le_one, Double.InUnit]
    | nan => simp [Grid.set_prob, Double.ge_zero, Double.le_one, Double.InUnit]
  · have h : ¬ ((3 : ℚ) / 2 ≤ 1) := by norm_num
    simp [Grid.set_prob, Double.ge_zero, Double.le_one, h]
  · have h1 : (0 : ℚ) ≤ 5404319552844595 / 18014398509481984 := by norm_num
    have h2 : (5404319552844595 : ℚ) / 18014398509481984 ≤ 1 := by norm_num
    simp [Grid.set_prob, Double.ge_zero, Double.le_one, h1, h2]

/-- Claim C8: for every 64-bit state, `rand_long` returns, and stores as the new
state, the value `c` of the formula `a = s xor (s << 21)`, `b = a xor (a >> 35)`,
`c = b xor (b << 4)` taken modulo `2 ^ 64`; the first draw from a generator seeded
with 1 is 35651601, that is 0x2200011. -/
theorem rand_long_matches_formula (r : Rand) (hs : r.current_state < 2 ^ 64) :
    r.rand_long.1 = Rand.draw_spec r.current_state
      ∧ r.rand_long.2.current_state = Rand.draw_spec r.current_state
      ∧ (Rand.construct 1).rand_long.1 = 35651601
      ∧ (35651601 : Nat) = 0x2200011 := by
  refine ⟨?_, ?_, by decide, by decide⟩
  · exact xorshift_eq_spec hs
  · exact xorshift_eq_spec hs

/-- Claim C8 for the generator seeded with 1. -/
theorem rand_long_matches_formula_witness :
    (Rand.construct 1).current_state < 2 ^ 64
      ∧ (Rand.construct 1).rand_long.1 = Rand.draw_spec (Rand.construct 1).current_state
      ∧ (Rand.construct 1).rand_long.2.current_state
          = Rand.draw_spec (Rand.construct 1).current_state
      ∧ (Rand.construct 1).rand_long.1 = 35651601
      ∧ (35651601 : Nat) = 0x2200011 :=
  ⟨by decide, rand_long_matches_formula (Rand.construct 1) (by decide)⟩

/-- Claim C9: for every non-zero 64-bit seed and every `k >= 1`, the state after
`k` calls of `rand_long` and the `k`-th value returned are non-zero; the update is
a bijection of the 64-bit words onto themselves and maps 0 to 0. -/
theorem rand_state_never_zero (seed k : Nat) (h0 : seed ≠ 0) (hs : seed < 2 ^ 64)
    (hk : 1 ≤ k) :
    ((Rand.construct seed).after k).current_state ≠ 0
      ∧ (Rand.construct seed).draw k ≠ 0
      ∧ Set.BijOn Rand.xorshift (Set.Iio (2 ^ 64)) (Set.Iio (2 ^ 64))
      ∧ Rand.xorshift 0 = 0 := by
  have hc : (Rand.construct seed).current_state = seed := by
    simp [Rand.construct, h0]
  have ha := after_state (Rand.construct seed) k (by rw [hc]; exact hs) (by rw [hc]; exact h0)
  refine ⟨ha.2, ?_, xorshift_bijOn, xorshift_zero⟩
  rw [draw_eq_after _ _ hk]
  exact ha.2

/-- Claim C9 for the seed 4 of `main` and three draws. -/
theorem rand_state_never_zero_witness :
    (4 : Nat) ≠ 0 ∧ (4 : Nat) < 2 ^ 64 ∧ 1 ≤ 3
      ∧ ((Rand.construct 4).after 3).current_state ≠ 0
      ∧ (Rand.construct 4).draw 3 ≠ 0
      ∧ Set.BijOn Rand.xorshift (Set.Iio (2 ^ 64)) (Set.Iio (2 ^ 64))
      ∧ Rand.xorshift 0 = 0 :=
  ⟨by decide, by decide, by decide, rand_state_never_zero 4 3 (by decide) (by decide) (by decide)⟩

/-- Claim C10: the constructor turns the seed 0 into 1, so the generator it
builds, its states and its draws are those of the seed 1; for a non-zero seed the
initial state is the seed. -/
theorem construct_replaces_zero_seed (seed : Nat) (h : seed ≠ 0) :
    Rand.construct 0 = Rand.construct 1
      ∧ (∀ k, (Rand.construct 0).after k = (Rand.construct 1).after k)
      ∧ (∀ k, (Rand.construct 0).draw k = (Rand.construct 1).draw k)
      ∧ (Rand.construct seed).current_state = seed := by
  have e : Rand.construct 0 = Rand.construct 1 := rfl
  refine ⟨e, fun k => by rw [e], fun k => by rw [e], ?_⟩
  simp [Rand.construct, h]

/-- Claim C10 for the seed 4 of `main`. -/
theorem construct_replaces_zero_seed_witness :
    (4 : Nat) ≠ 0
      ∧ Rand.construct 0 = Rand.construct 1
      ∧ (∀ k, (Rand.construct 0).after k = (Rand.construct 1).after k)
      ∧ (∀ k, (Rand.construct 0).draw k = (Rand.construct 1).draw k)
      ∧ (Rand.construct 4).current_state = 4 :=
  ⟨by decide, construct_replaces_zero_seed 4 (by decide)⟩

/-- Claim C11, evaluated where the code departs from it: the default constructor
stores the seed 0, not 1, so the initial state is 0 where that of the seed 1 is 1,
and every value it draws is 0 where the first draw of the seed 1 is 35651601. -/
theorem default_constructor_seeds_zero :
    Rand.construct_default.seed = 0
      ∧ Rand.construct_default.current_state = 0
      ∧ (Rand.construct 1).current_state = 1
      ∧ (∀ k, Rand.construct_default.draw k = 0)
      ∧ (Rand.construct 1).draw 1 = 35651601 := by
  refine ⟨rfl, rfl, rfl, ?_, by decide⟩
  intro k
  have h := after_zero_state Rand.construct_default (k - 1) rfl
  simp only [Rand.draw, Rand.rand_long, h]
  exact xorshift_zero

/-- Claim C12 as stated fails: with `cell_prob` one half and a generator whose
first draw is `2 ^ 63 - 1`, the exact quotient `(MAX - d) / MAX` is
`2 ^ 63 / (2 ^ 64 - 1)`, above one half, so the claim leaves the cell `(0, 0)`
dead; `randomize_grid` divides by the double `2 ^ 64`, gets one half, and makes the
cell alive. -/
theorem randomize_grid_exact_quotient_fails :
    ¬ (∀ (g : Grid) (r : Rand) (q : ℚ) (i j : Nat), g.cell_prob = .fin q →
        r.current_state < 2 ^ 64 → i < 200 → j < 200 →
        ((g.randomize_grid r).1.cell i j = true
          ↔ ((ULONG_MAX : ℚ) - (r.draw (200 * i + j + 1) : ℚ)) / (ULONG_MAX : ℚ) ≤ q)) := by
  intro h
  have h1 := h (Grid.construct (fun _ => false)) (Rand.construct 15372873306502786798)
    (1 / 2) 0 0 rfl (by decide) (by decide) (by decide)
  rw [randomize_grid_cell _ _ 0 0 (by decide) (by decide)] at h1
  have hc : (Grid.construct (fun _ => false)).cell_prob = .fin (1 / 2) := rfl
  rw [hc, draw_half, randomize_alive_half] at h1
  have h2 := h1.1 rfl
  simp only [ULONG_MAX] at h2
  norm_num at h2

/-- Claim C12, amended: `randomize_grid` draws once for each cell, row after row, so
the cell `(i, j)` is decided by draw number `200 i + j + 1`, a 64-bit word `d`: the
cell is alive when `D / 2 ^ 64 <= cell_prob`, where `D` is `ULONG_MAX - d` rounded
to a double and `2 ^ 64` is `ULONG_MAX` rounded to a double.  The generator is left
in the state after 40000 draws, and the cell depends on the generator and on
`cell_prob` only. -/
theorem randomize_grid_draws_row_major (g : Grid) (r : Rand) (i j : Nat)
    (hs : r.current_state < 2 ^ 64) (hi : i < 200) (hj : j < 200) :
    r.draw (200 * i + j + 1) < 2 ^ 64
      ∧ (g.randomize_grid r).1.cell i j
          = (Double.fin ((ulong_to_double (ULONG_MAX - r.draw (200 * i + j + 1)) : ℚ) / 2 ^ 64)).le
              g.cell_prob
      ∧ (g.randomize_grid r).2 = r.after 40000
      ∧ ∀ g2 : Grid, g2.cell_prob = g.cell_prob →
          (g2.randomize_grid r).1.cell i j = (g.randomize_grid r).1.cell i j := by
  have h2 : ulong_to_double ULONG_MAX = 2 ^ 64 := by decide
  refine ⟨draw_lt r _ hs, ?_, ?_, ?_⟩
  · rw [randomize_grid_cell g r i j hi hj]
    simp only [randomize_alive, ulong_div_double, h2]
    norm_num
  · rw [randomize_grid_eq]
  · intro g2 hg2
    rw [randomize_grid_cell g r i j hi hj, randomize_grid_cell g2 r i j hi hj, hg2]

/-- The amended claim C12 for the generator of `main`, seeded with 4, on a fresh
engine, for the cell `(1, 2)`. -/
theorem randomize_grid_draws_row_major_witness :
    (Rand.construct 4).current_state < 2 ^ 64 ∧ 1 < 200 ∧ 2 < 200
      ∧ (Rand.construct 4).draw (200 * 1 + 2 + 1) < 2 ^ 64
      ∧ ((Grid.construct (fun _ => true)).randomize_grid (Rand.construct 4)).1.cell
            (1 : Nat) (2 : Nat)
          = (Double.fin ((ulong_to_double
              (ULONG_MAX - (Rand.construct 4).draw (200 * 1 + 2 + 1)) : ℚ) / 2 ^ 64)).le
              (Grid.construct (fun _ => true)).cell_prob
      ∧ ((Grid.construct (fun _ => true)).randomize_grid (Rand.construct 4)).2
          = (Rand.construct 4).after 40000
      ∧ ∀ g2 : Grid, g2.cell_prob = (Grid.construct (fun _ => true)).cell_prob →
          (g2.randomize_grid (Rand.construct 4)).1.cell (1 : Nat) (2 : Nat)
            = ((Grid.construct (fun _ => true)).randomize_grid (Rand.construct 4)).1.cell
                (1 : Nat) (2 : Nat) :=
  ⟨by decide, by decide, by decide,
    randomize_grid_draws_row_major _ _ 1 2 (by decide) (by decide) (by decide)⟩

/-- Claim C13, evaluated where the code departs from it.  The engine is built by
`Grid::Grid` in memory that is not zero and loads the three lines `.O.`: the load
is accepted and the live cells are those of the vertical blinker.  One `next_state`
makes `(1, 0)`, `(1, 1)`, `(1, 2)` alive, and it makes the cell `(199, 5)` alive
too: `in_range` admits the row index 200, and `grid[200][4]`, `grid[200][5]`,
`grid[200][6]` are read from the memory that follows the array. -/
theorem blinker_next_state_reads_past_array :
    ((Grid.construct (fun _ => true)).file_to_grid (some blinker_lines)).1 = LoadStatus.loaded
      ∧ (∀ y x : Fin 200,
          ((Grid.construct (fun _ => true)).file_to_grid (some blinker_lines)).2.cell
              (y.val : Int) (x.val : Int)
            = decide ((x.val : Int) = 1 ∧ (y.val : Int) ≤ 2))
      ∧ ((Grid.construct (fun _ => true)).file_to_grid
          (some blinker_lines)).2.next_state.cell 1 0 = true
      ∧ ((Grid.construct (fun _ => true)).file_to_grid
          (some blinker_lines)).2.next_state.cell 1 1 = true
      ∧ ((Grid.construct (fun _ => true)).file_to_grid
          (some blinker_lines)).2.next_state.cell 1 2 = true
      ∧ ((Grid.construct (fun _ => true)).file_to_grid
          (some blinker_lines)).2.next_state.cell 199 5 = true := by
  have h := blinker_last_row (Grid.construct (fun _ => true))
    (fun k hk => by rw [construct_grid, if_pos hk])
    (fun k hk => by rw [construct_grid, if_neg (by omega)])
  exact ⟨h.1, fun y x => h.2.1 _ _ (by omega), h.2.2⟩

/-- Claim C14, evaluated where the code departs from it.  The engine is built by
`Grid::Grid` in memory that is not zero and loads the two lines `OO`: the live
cells are exactly the 2x2 block at `(0, 0)`.  The cell `(199, 5)` is dead before
`next_state` and alive after it, so the grid is no fixed point: the three reads
`grid[200][4]`, `grid[200][5]`, `grid[200][6]` that `in_range` admits come from the
memory that follows the array. -/
theorem block_next_state_reads_past_array :
    (∀ y x : Fin 200,
        ((Grid.construct (fun _ => true)).file_to_grid (some block_lines)).2.cell
            (y.val : Int) (x.val : Int)
          = decide (((y.val : Int) = 0 ∨ (y.val : Int) = 1)
              ∧ ((x.val : Int) = 0 ∨ (x.val : Int) = 1)))
      ∧ ((Grid.construct (fun _ => true)).file_to_grid (some block_lines)).2.cell 199 5 = false
      ∧ ((Grid.construct (fun _ => true)).file_to_grid
          (some block_lines)).2.next_state.cell 199 5 = true := by
  have h := block_last_row (Grid.construct (fun _ => true))
    (fun k hk => by rw [construct_grid, if_pos hk])
    (fun k hk => by rw [construct_grid, if_neg (by omega)])
  exact ⟨fun y x => h.1 _ _ (by omega), h.2⟩

/-- Claim C15, evaluated where the code departs from it.  The engine built by
`Grid::Grid` in memory that is not zero has all its 200x200 cells dead; after
`next_state` the cell `(199, 5)` is alive: it has no neighbour in the grid that is
alive, but `in_range` admits the row index 200 and the three reads `grid[200][4]`,
`grid[200][5]`, `grid[200][6]` come from the memory that follows the array. -/
theorem all_dead_next_state_reads_past_array :
    (∀ y x : Fin 200, (Grid.construct (fun _ => true)).cell (y.val : Int) (x.val : Int) = false)
      ∧ live_neighbours_spec (Grid.construct (fun _ => true)) 199 5 = 0
      ∧ live_neighbors_code (Grid.construct (fun _ => true)) 199 5 = 3
      ∧ (Grid.construct (fun _ => true)).next_state.cell 199 5 = true := by
  have hg : ∀ k : Int, 0 ≤ k ∧ k < 40000 → (Grid.construct (fun _ => true)).grid k = false :=
    fun k hk => by rw [construct_grid, if_pos hk]
  have hp : ∀ k : Int, 40000 ≤ k → (Grid.construct (fun _ => true)).grid k = true :=
    fun k hk => by rw [construct_grid, if_neg (by omega)]
  refine ⟨?_, next_state_last_row_birth _ ?_ ?_ ?_⟩
  · intro y x
    exact clean_grid_cell _ _ _ (by omega) (by omega)
  · exact ⟨hg _ (by omega), hg _ (by omega), hg _ (by omega)⟩
  · exact ⟨hg _ (by omega), hg _ (by omega), hg _ (by omega)⟩
  · exact ⟨hp _ (by omega), hp _ (by omega), hp _ (by omega)⟩

/-- Claim C16: a menu that is one of the four states `Main`, `Move`, `Parameter`,
`File` goes, on the input `c`, where the transition table sends the lower-case form
of `c`, and the process ends exactly where the table ends it (`x` in `Main`); the
input `c` and its lower-case form have the same effect on the whole session; the
menu starts in `Main`. -/
theorem handle_input_follows_table (st : MenuState) (s : Session) (typed : Typed) (c : Char)
    (h : s.menu.current_menu = st.code) :
    (handle_input s typed c).map (fun t => t.menu.current_menu)
        = (transition_spec st (tolower c)).map MenuState.code
      ∧ handle_input s typed c = handle_input s typed (tolower c)
      ∧ Menu.construct.current_menu = MenuState.Main.code := by
  refine ⟨?_, ?_, rfl⟩
  · cases st
    · simp only [MenuState.code] at h
      simp only [handle_input, h, if_true, handle_main_input, transition_spec]
      split_ifs <;> simp_all [MenuState.code]
    · simp only [MenuState.code] at h
      simp only [handle_input, h, handle_move_input, transition_spec]
      split_ifs <;> simp_all [MenuState.code]
    · simp only [MenuState.code] at h
      simp [handle_input, h, handle_parameter_input, transition_spec, MenuState.code]
    · simp only [MenuState.code] at h
      simp [handle_input, h, handle_file_input, transition_spec, MenuState.code]
  · simp only [handle_input, tolower_tolower]

/-- Claim C16 for the session of `main` right after construction and the input `M`:
the menu goes from `Main` to `Move`. -/
theorem handle_input_follows_table_witness :
    (Session.mk Menu.construct (Grid.construct (fun _ => true))
        (Rand.construct 4)).menu.current_menu = MenuState.Main.code
      ∧ (handle_input (Session.mk Menu.construct (Grid.construct (fun _ => true))
            (Rand.construct 4)) (Typed.mk 1 1 (.fin 0) 'O' '.' none) 'M').map
          (fun t => t.menu.current_menu)
        = (transition_spec MenuState.Main (tolower 'M')).map MenuState.code
      ∧ handle_input (Session.mk Menu.construct (Grid.construct (fun _ => true))
            (Rand.construct 4)) (Typed.mk 1 1 (.fin 0) 'O' '.' none) 'M'
        = handle_input (Session.mk Menu.construct (Grid.construct (fun _ => true))
            (Rand.construct 4)) (Typed.mk 1 1 (.fin 0) 'O' '.' none) (tolower 'M')
      ∧ Menu.construct.current_menu = MenuState.Main.code :=
  ⟨rfl, handle_input_follows_table MenuState.Main _ _ 'M' rfl⟩

/-- Claim C17: with the origin of the viewport in its range, `display_grid`
prints 40 rows of 80 glyphs; the glyph in row `r`, column `c` is `live_char` when
the cell `(top_left_y + r, top_left_x + c)`, a cell of the grid, is alive and
`dead_char` when it is dead; the engine after the call is the engine before it. -/
theorem display_grid_renders_viewport (g : Grid)
    (hx : 0 ≤ g.top_left_x ∧ g.top_left_x ≤ 119) (hy : 0 ≤ g.top_left_y ∧ g.top_left_y ≤ 159) :
    g.display_grid.1.length = 40
      ∧ (∀ row ∈ g.display_grid.1, row.length = 80)
      ∧ (∀ r c : Nat, r < 40 → c < 80 →
          (0 ≤ g.top_left_y + r ∧ g.top_left_y + r < 200
            ∧ 0 ≤ g.top_left_x + c ∧ g.top_left_x + c < 200)
          ∧ (g.display_grid.1[r]?).bind (fun row => row[c]?)
            = some (if g.cell (g.top_left_y + r) (g.top_left_x + c)
                then g.live_char else g.dead_char))
      ∧ g.display_grid.2 = g := by
  rw [display_grid_rows]
  refine ⟨by simp, ?_, ?_, rfl⟩
  · intro row hrow
    simp only [List.mem_map, List.mem_range] at hrow
    obtain ⟨r, _, rfl⟩ := hrow
    simp
  · intro r c hr hc
    refine ⟨by omega, ?_⟩
    simp [List.getElem?_map, List.getElem?_range, hr, hc]

/-- Claim C17 for the engine right after construction. -/
theorem display_grid_renders_viewport_witness :
    (0 ≤ (Grid.construct (fun _ => true)).top_left_x
        ∧ (Grid.construct (fun _ => true)).top_left_x ≤ 119)
      ∧ (0 ≤ (Grid.construct (fun _ => true)).top_left_y
        ∧ (Grid.construct (fun _ => true)).top_left_y ≤ 159)
      ∧ (Grid.construct (fun _ => true)).display_grid.1.length = 40
      ∧ (∀ row ∈ (Grid.construct (fun _ => true)).display_grid.1, row.length = 80)
      ∧ (∀ r c : Nat, r < 40 → c < 80 →
          (0 ≤ (Grid.construct (fun _ => true)).top_left_y + r
            ∧ (Grid.construct (fun _ => true)).top_left_y + r < 200
            ∧ 0 ≤ (Grid.construct (fun _ => true)).top_left_x + c
            ∧ (Grid.construct (fun _ => true)).top_left_x + c < 200)
          ∧ ((Grid.construct (fun _ => true)).display_grid.1[r]?).bind (fun row => row[c]?)
            = some (if (Grid.construct (fun _ => true)).cell
                  ((Grid.construct (fun _ => true)).top_left_y + r)
                  ((Grid.construct (fun _ => true)).top_left_x + c)
                then (Grid.construct (fun _ => true)).live_char
                else (Grid.construct (fun _ => true)).dead_char))
      ∧ (Grid.construct (fun _ => true)).display_grid.2 = Grid.construct (fun _ => true) :=
  ⟨⟨by decide, by decide⟩, ⟨by decide, by decide⟩,
    display_grid_renders_viewport _ ⟨by decide, by decide⟩ ⟨by decide, by decide⟩⟩

/-- Claim C18: `in_range(y, x)` is true exactly for `0 <= x <= 200` and
`0 <= y <= 200`, so it is true for a coordinate equal to the dimension 200 and false
for the coordinates -1 and 201. -/
theorem in_range_admits_dimension (y x : Int) :
    in_range y x = decide (0 ≤ x ∧ x ≤ 200 ∧ 0 ≤ y ∧ y ≤ 200)
      ∧ in_range 200 200 = true ∧ in_range 200 0 = true ∧ in_range 0 200 = true
      ∧ in_range (-1) 0 = false ∧ in_range 0 (-1) = false
      ∧ in_range 201 0 = false ∧ in_range 0 201 = false :=
  ⟨in_range_eq y x, by decide, by decide, by decide, by decide, by decide, by decide,
    by decide⟩

/-- Claim C19, evaluated where the code departs from it: for the cell `(0, 199)`
`next_state_cell` reads `grid[0][200]`, for the cell `(199, 0)` it reads
`grid[200][0]`, and for the cell `(199, 199)` it reads `grid[200][200]`; none of the
three is an element of the 200x200 array, and the last two lie behind its end. -/
theorem next_state_cell_reads_outside_grid :
    (0, 200) ∈ next_state_cell_reads 0 199
      ∧ (200, 0) ∈ next_state_cell_reads 199 0
      ∧ (200, 200) ∈ next_state_cell_reads 199 199
      ∧ grid_width * 200 + 0 = grid_length * grid_width := by
  decide

/-- Claim C20: in every engine state that the constructor and the public members
lead to, each read `grid[y][x]` of `display_grid` has `0 <= y <= 198` and
`0 <= x <= 198`; the reads are those of the 40 x 80 cells of the viewport. -/
theorem display_grid_reads_in_viewport (g : Grid) (h : Reachable g) :
    (∀ p ∈ g.display_grid_reads, 0 ≤ p.1 ∧ p.1 ≤ 198 ∧ 0 ≤ p.2 ∧ p.2 ≤ 198)
      ∧ (∀ p : Int × Int, p ∈ g.display_grid_reads
          ↔ ∃ r c : Nat, r < 40 ∧ c < 80
              ∧ p = (g.top_left_y + (r : Int), g.top_left_x + (c : Int))) := by
  have ho := reachable_origin g h
  refine ⟨?_, mem_display_grid_reads g⟩
  intro p hp
  obtain ⟨r, c, hr, hc, rfl⟩ := (mem_display_grid_reads g p).1 hp
  simp only
  omega

/-- Claim C20 for the engine that is constructed, given the step size 150 and
moved once to the right and once down. -/
theorem display_grid_reads_in_viewport_witness :
    Reachable (((Grid.construct (fun _ => true)).set_hor_step_size 150).move_origin 1 1)
      ∧ (∀ p ∈ (((Grid.construct (fun _ => true)).set_hor_step_size 150).move_origin
            1 1).display_grid_reads,
          0 ≤ p.1 ∧ p.1 ≤ 198 ∧ 0 ≤ p.2 ∧ p.2 ≤ 198)
      ∧ (∀ p : Int × Int,
          p ∈ (((Grid.construct (fun _ => true)).set_hor_step_size 150).move_origin
            1 1).display_grid_reads
          ↔ ∃ r c : Nat, r < 40 ∧ c < 80
              ∧ p = ((((Grid.construct (fun _ => true)).set_hor_step_size 150).move_origin
                    1 1).top_left_y + (r : Int),
                  (((Grid.construct (fun _ => true)).set_hor_step_size 150).move_origin
                    1 1).top_left_x + (c : Int))) :=
  ⟨Reachable.move_origin 1 1 (Reachable.set_hor_step_size 150 (Reachable.construct _)),
    display_grid_reads_in_viewport _
      (Reachable.move_origin 1 1 (Reachable.set_hor_step_size 150 (Reachable.construct _)))⟩

end GameOfLife
